import Mathlib

/-!
Verification of the matlab-beautifier formatting core (src/beautifier.rs).

The Rust program consumes a concrete syntax tree produced by the external
tree-sitter-matlab parser and re-emits the program text.  This file gives a
shallow embedding of the whole rendering engine: the `Node` type models a
tree-sitter node (kind tag, source range, named/extra flags, field name,
source text slice, children), `Arguments` models the configuration struct of
src/args.rs, and `State` models the mutable render state threaded through the
traversal.  Output is modelled as the accumulated `formatted` string: the
Rust code either accumulates into `state.formatted` (inplace mode) or prints
the identical characters to stdout, so one accumulator covers both sinks.

The mutually recursive formatting routines are embedded as one fuel-indexed
interpreter `run` (recursion on the fuel via `Nat.rec`, hence everything
computes by kernel reduction); each Rust function `format_xyz` appears as a
literal, non-recursive definition `format_xyz_body` that receives the
recursive entry point as an explicit argument, plus a wrapper `format_xyz`
fixing the fuel.  Sibling access (`prev_named_sibling` / `next_named_sibling`,
used for comment reattachment around blocks) is passed explicitly: callers of
`format_block` hand over the named siblings before (nearest first) and after
the block, computed from the parent node, exactly the nodes the tree walk in
Rust would visit.  Fallible child/field lookups return `Except Err`, with
`Err.errAtLoc` carrying the row/column of `TraversingError::err_at_loc`, and
`Err.panicked` marking the one `unwrap` in the block-comment path that can
panic in Rust.  `Err.outOfFuel` only signals fuel exhaustion of the model.
-/

namespace Beautifier

/-- Source position, mirroring tree-sitter `Point` (row, column). -/
structure Point where
  row : Nat
  col : Nat
deriving DecidableEq, Repr

/-- Concrete syntax tree node, mirroring the parts of tree-sitter `Node` the
formatter reads: numeric identity (`id`), `kind`, named/extra flags, the
field name the parent assigned to this child (for `child_by_field_name`), the
source text slice (`utf8_text`), the source range, the derived error flag of
the root, and the ordered children. -/
inductive Node where
  | mk (id : Nat) (kind : String) (isNamed : Bool) (isExtra : Bool)
       (fieldName : Option String) (text : String)
       (startPoint : Point) (endPoint : Point) (hasError : Bool)
       (children : List Node)

/-- Identity of a node, mirroring tree-sitter `Node::id`. -/
def Node.id : Node → Nat
  | .mk i _ _ _ _ _ _ _ _ _ => i

/-- Kind tag of a node, mirroring `Node::kind`. -/
def Node.kind : Node → String
  | .mk _ k _ _ _ _ _ _ _ _ => k

/-- Whether the node is named, mirroring `Node::is_named`. -/
def Node.isNamed : Node → Bool
  | .mk _ _ n _ _ _ _ _ _ _ => n

/-- Whether the node is an extra, mirroring `Node::is_extra`. -/
def Node.isExtra : Node → Bool
  | .mk _ _ _ e _ _ _ _ _ _ => e

/-- Field name the parent assigned to this child, if any. -/
def Node.fieldName : Node → Option String
  | .mk _ _ _ _ f _ _ _ _ _ => f

/-- Source text of the node, mirroring `Node::utf8_text` (the model stores
valid text directly, so decoding cannot fail). -/
def Node.text : Node → String
  | .mk _ _ _ _ _ t _ _ _ _ => t

/-- Start position of the node range, mirroring `range().start_point`. -/
def Node.startPoint : Node → Point
  | .mk _ _ _ _ _ _ p _ _ _ => p

/-- End position of the node range, mirroring `range().end_point`. -/
def Node.endPoint : Node → Point
  | .mk _ _ _ _ _ _ _ p _ _ => p

/-- Error flag, mirroring `Node::has_error` on the root. -/
def Node.hasError : Node → Bool
  | .mk _ _ _ _ _ _ _ _ h _ => h

/-- Ordered children of the node. -/
def Node.children : Node → List Node
  | .mk _ _ _ _ _ _ _ _ _ c => c

/-- Named children in order, mirroring `Node::named_children`. -/
def Node.namedChildren (n : Node) : List Node :=
  n.children.filter (fun c => c.isNamed)

/-- Lookup of the i-th named child, mirroring `Node::named_child(i)`. -/
def Node.namedChild (n : Node) (i : Nat) : Option Node :=
  n.namedChildren.get? i

/-- Lookup of the i-th child, mirroring `Node::child(i)`. -/
def Node.child (n : Node) (i : Nat) : Option Node :=
  n.children.get? i

/-- Lookup of a child by field name, mirroring `Node::child_by_field_name`. -/
def Node.childByFieldName (n : Node) (f : String) : Option Node :=
  n.children.find? (fun c => c.fieldName = some f)

/-- Named siblings before `child` inside `parent`, nearest first: the nodes a
`prev_named_sibling` walk starting at `child` visits. -/
def prevNamedRev (parent child : Node) : List Node :=
  (parent.namedChildren.takeWhile (fun c => c.id ≠ child.id)).reverse

/-- Named siblings after `child` inside `parent`, nearest first: the nodes a
`next_named_sibling` walk starting at `child` visits. -/
def nextNamed (parent child : Node) : List Node :=
  (parent.namedChildren.dropWhile (fun c => c.id ≠ child.id)).drop 1

/-- Configuration flags of src/args.rs that the formatter reads (the file
list of the CLI struct plays no role in rendering and is omitted). -/
structure Arguments where
  sparse_math : Bool
  sparse_add : Bool
  inplace : Bool
deriving DecidableEq, Repr

/-- Render state of src/beautifier.rs (`struct State`).  The byte source
`code` is not stored: each node carries its text slice. -/
structure State where
  formatted : String
  arguments : Arguments
  col : Nat
  row : Nat
  level : Nat
  extra_indentation : Nat
deriving DecidableEq, Repr

/-- Errors of the formatting pass: the syntax-error refusal of `beautify`,
the located lookup failure of `TraversingError::err_at_loc`, the panic of the
block-comment `unwrap`, and fuel exhaustion of the model. -/
inductive Err where
  | parseErr
  | errAtLoc (row col : Nat)
  | panicked
  | outOfFuel
deriving DecidableEq, Repr

/-- Append text to the output, mirroring `State::print`: both output modes
emit the same characters, modelled as one accumulator; the column advances by
the byte length, as `self.col += string.len()` does. -/
def State.print (s : State) (t : String) : State :=
  { s with formatted := s.formatted ++ t, col := s.col + t.utf8ByteSize }

/-- Append text and a line break, mirroring `State::println`. -/
def State.println (s : State) (t : String) : State :=
  { s with formatted := s.formatted ++ t ++ "\n", col := 0, row := s.row + 1 }

/-- Print the text of a node, mirroring `State::print_node`. -/
def print_node (s : State) (n : Node) : State :=
  s.print n.text

/-- Print a string `n` times, modelling the `for _ in 0..k` print loops of
`State::indent`. -/
def printTimes (s : State) (t : String) : Nat → State
  | 0 => s
  | k + 1 => printTimes (s.print t) t k

/-- Indent to the current level and extra indentation, mirroring
`State::indent`. -/
def State.indent (s : State) : State :=
  printTimes (printTimes s "    " s.level) " " s.extra_indentation

/-- Latched setter of the alignment column, mirroring
`State::maybe_set_extra_indentation`. -/
def State.maybe_set_extra_indentation (s : State) (value : Nat) : State :=
  if s.extra_indentation = 0 then { s with extra_indentation := value } else s

/-- Located lookup failure, mirroring `TraversingError::err_at_loc` for
`Option`: a missing element becomes an error at the start point of the
offending node. -/
def err_at_loc {α : Type} (o : Option α) (node : Node) : Except Err α :=
  match o with
  | some a => .ok a
  | none => .error (.errAtLoc node.startPoint.row node.startPoint.col)

/-- Statement kinds that carry their own delimiter and so get no `;`
terminator (the `statements` vec of `format_block`). -/
def blockStatements : List String :=
  ["arguments_statement", "class_definition", "comment", "for_statement",
   "function_definition", "if_statement", "switch_statement", "try_statement",
   "while_statement"]

/-- Command names that open an embedded indented region (the `indents` vec of
`format_block`). -/
def blockIndents : List String := ["cvx_begin", "subject"]

/-- Command names that close an embedded indented region (the `dedents` vec
of `format_block`). -/
def blockDedents : List String := ["cvx_end"]

/-- Operators that get spaces under the sparse-add mode (the `add_ops` vec of
`format_binary`). -/
def addOps : List String := ["+", "-", ".+", ".-"]

/-- Repetition of a string, the text `printTimes` emits. -/
def strRep (t : String) : Nat → String
  | 0 => ""
  | k + 1 => t ++ strRep t k

/-- Text emitted by `State.indent` from state `s`. -/
def indentString (s : State) : String :=
  strRep "    " s.level ++ strRep " " s.extra_indentation

theorem print_formatted (s : State) (t : String) :
    (s.print t).formatted = s.formatted ++ t := rfl

theorem print_arguments (s : State) (t : String) :
    (s.print t).arguments = s.arguments := rfl

theorem println_arguments (s : State) (t : String) :
    (s.println t).arguments = s.arguments := rfl

theorem printTimes_arguments (s : State) (t : String) (n : Nat) :
    (printTimes s t n).arguments = s.arguments := by
  induction n generalizing s with
  | zero => rfl
  | succ k ih => simpa [printTimes] using ih (s.print t)

theorem indent_arguments (s : State) :
    (s.indent).arguments = s.arguments := by
  simp [State.indent, printTimes_arguments]

theorem printTimes_formatted (s : State) (t : String) (n : Nat) :
    (printTimes s t n).formatted = s.formatted ++ strRep t n := by
  induction n generalizing s with
  | zero => simp [printTimes, strRep]
  | succ k ih =>
      simp only [printTimes, strRep, ih (s.print t), print_formatted]
      simp [String.append_assoc]

theorem printTimes_level (s : State) (t : String) (n : Nat) :
    (printTimes s t n).level = s.level := by
  induction n generalizing s with
  | zero => rfl
  | succ k ih => simpa [printTimes] using ih (s.print t)

theorem printTimes_extra (s : State) (t : String) (n : Nat) :
    (printTimes s t n).extra_indentation = s.extra_indentation := by
  induction n generalizing s with
  | zero => rfl
  | succ k ih => simpa [printTimes] using ih (s.print t)

theorem printTimes_row (s : State) (t : String) (n : Nat) :
    (printTimes s t n).row = s.row := by
  induction n generalizing s with
  | zero => rfl
  | succ k ih => simpa [printTimes] using ih (s.print t)

theorem indent_formatted (s : State) :
    (s.indent).formatted = s.formatted ++ indentString s := by
  simp [State.indent, indentString, printTimes_formatted, printTimes_level,
    printTimes_extra, String.append_assoc]

theorem indent_level (s : State) : (s.indent).level = s.level := by
  simp [State.indent, printTimes_level]

theorem indent_extra (s : State) :
    (s.indent).extra_indentation = s.extra_indentation := by
  simp [State.indent, printTimes_extra]

theorem maybe_set_arguments (s : State) (v : Nat) :
    (s.maybe_set_extra_indentation v).arguments = s.arguments := by
  unfold State.maybe_set_extra_indentation
  split <;> rfl

/-- Leading-whitespace drop over a character list, the workhorse of
`rustTrim`. -/
def dropWhileWS : List Char → List Char
  | [] => []
  | c :: rest => if c.isWhitespace then dropWhileWS rest else c :: rest

/-- Whitespace trim of both ends, modelling the Rust `str::trim` calls of
the formatter with an executable structural recursion (Rust trims the
Unicode white-space set; the claims only exercise ASCII whitespace, where
the two agree). -/
def rustTrim (s : String) : String :=
  String.mk ((dropWhileWS ((dropWhileWS s.data).reverse)).reverse)

/-- Drop a leading percent sign if present, mirroring the Rust pattern
`strip_prefix of a percent char with unwrap_or`. -/
def dropPct (t : String) : String :=
  if t.startsWith "%" then t.drop 1 else t

/-- Interior line loop of the block-comment branch of `format_comment`:
`state.indent(); state.println(line);` per line. -/
def cmt_lines_go : List String → State → State
  | [], s => s
  | l :: rest, s => cmt_lines_go rest ((s.indent).println l)

/-- Line loop of the multi-row single-marker branch of `format_comment`. -/
def cmt_multi_go : Bool → List String → State → State
  | _, [], s => s
  | isFirst, l :: rest, s =>
      let l := rustTrim l
      let s := if isFirst then s else (s.println "").indent
      let s := s.print "%"
      let s := if l.isEmpty then s else s.print " "
      cmt_multi_go false rest (s.print l)

/-- Comment formatter, mirroring `format_comment`.  The one fallible step is
the Rust `strip_suffix` `unwrap` on a block comment that does not end with
the closing marker, modelled as `Err.panicked`. -/
def format_comment (s : State) (node : Node) : Except Err State :=
  let text := node.text
  if node.startPoint.row ≠ node.endPoint.row then
    if text.startsWith "%\x7b" then
      let body := text.drop 2
      if body.endsWith "%\x7d" then
        let inner := body.dropRight 2
        let lines := ((inner.splitOn "\n").map rustTrim).filter
          (fun l => !l.isEmpty)
        let s := s.println "%\x7b"
        let s := { s with extra_indentation := 2 }
        let s := cmt_lines_go lines s
        let s := { s with extra_indentation := 0 }
        .ok ((s.indent).print "%\x7d")
      else .error .panicked
    else
      let lines := (text.splitOn "\n").map
        (fun l => rustTrim (dropPct (rustTrim l)))
      .ok (cmt_multi_go true lines s)
  else
    let line := rustTrim (dropPct text)
    if s.col = s.level * 4 then
      if text.startsWith "%#" || text.startsWith "%%" then
        .ok ((s.print "%").print line)
      else
        let s := s.print "%"
        let s := if line.isEmpty then s else s.print " "
        .ok (s.print line)
    else
      if text.startsWith "%#" || text.startsWith "%%" then
        .ok ((s.print " %").print line)
      else
        let s := s.print " %"
        let s := if line.isEmpty then s else s.print " "
        .ok (s.print line)

/-- Line-continuation formatter, mirroring `format_line_continuation` (pure:
the only fallible step in Rust is text decoding, which the model carries
pre-decoded). -/
def format_line_continuation (s : State) (node : Node) : State :=
  let s := s.print " "
  let s := print_node s node
  let s := if node.startPoint.row = node.endPoint.row then s.println ""
           else { s with col := 0, row := s.row + 1 }
  s.indent

/-- Space- or separator-joined emission of raw node texts, modelling the
enumerate loops that call `print_node` on each element. -/
def print_join_go (sep : String) : Bool → List Node → State → State
  | _, [], s => s
  | first, c :: rest, s =>
      let s := if first then s else s.print sep
      print_join_go sep false rest (print_node s c)

/-- Global/persistent declaration formatter, mirroring `format_global`. -/
def format_global (s : State) (node : Node) : State :=
  print_join_go " " true
    (node.children.filter (fun c => c.kind != "line_continuation")) s

/-- Property-name formatter, mirroring `format_property_name`. -/
def print_each_node : List Node → State → State
  | [], s => s
  | c :: rest, s => print_each_node rest (print_node s c)

/-- Dotted property name, mirroring `format_property_name`. -/
def format_property_name (s : State) (node : Node) : State :=
  print_each_node node.children s

/-- Dimension list of a property, mirroring `format_dimensions`. -/
def format_dimensions (s : State) (node : Node) : State :=
  (print_join_go "," true node.namedChildren (s.print "(")).print ")"

/-- Sequential `format_comment` over a list of comments, the loop of
`print_linter_comment`. -/
def comments_fold : List Node → State → Except Err State
  | [], s => pure s
  | c :: rest, s => do
      let s ← format_comment s c
      comments_fold rest s

/-- Inline pragma comments of a header, mirroring `print_linter_comment`. -/
def print_linter_comment (s : State) (node : Node) : Except Err State :=
  comments_fold
    (node.namedChildren.filter
      (fun n => n.kind == "comment" && n.text.startsWith "%#")) s

/-- Loop body of `print_non_linter_comments`: indent, comment, line break. -/
def nlc_fold : List Node → State → Except Err State
  | [], s => pure s
  | c :: rest, s => do
      let s ← format_comment (s.indent) c
      nlc_fold rest (s.println "")

/-- Non-pragma child comments of an empty construct, mirroring
`print_non_linter_comments`. -/
def print_non_linter_comments (s : State) (node : Node) : Except Err State :=
  nlc_fold
    (node.namedChildren.filter
      (fun n => n.kind == "comment" && !n.text.startsWith "%#")) s

/-- Leading run of non-pragma comments of a sibling list, the walk of
`print_non_linter_comments_after`. -/
def collect_after : List Node → List Node
  | [] => []
  | c :: rest =>
      if c.kind == "comment" && !c.text.startsWith "%#"
      then c :: collect_after rest else []

/-- Non-pragma comments following a clause at the same level, mirroring
`print_non_linter_comments_after`; the sibling walk is passed in as the named
siblings after `node` inside `parent`. -/
def print_non_linter_comments_after (s : State) (parent node : Node) :
    Except Err State :=
  nlc_fold (collect_after (nextNamed parent node)) s

/-- Comment siblings hugging a block from before, in source order: the
`prev_named_sibling` attachment loop of `format_block` (pragma comments are
skipped but the walk continues; a non-comment stops it). -/
def attachPrev : List Node → List Node → List Node
  | [], acc => acc
  | n :: rest, acc =>
      if n.kind == "comment" then
        if n.text.startsWith "%#" then attachPrev rest acc
        else attachPrev rest (n :: acc)
      else acc

/-- Comment siblings hugging a block from after: the `next_named_sibling`
attachment loop of `format_block`. -/
def attachNext : List Node → List Node
  | [] => []
  | n :: rest => if n.kind == "comment" then n :: attachNext rest else []

/-- Embedded-DSL dedent check at the top of the `format_block` loop body: a
`command` statement whose name is in `blockDedents` restores the entry
indentation level. -/
def block_dedent (s : State) (child : Node) (orig : Nat) : Except Err State :=
  if child.kind == "command" then do
    let c ← err_at_loc (child.namedChild 0) child
    if blockDedents.contains c.text then pure { s with level := orig }
    else pure s
  else pure s

/-- Embedded-DSL indent check after a statement in `format_block`: a
`command` whose name is in `blockIndents` deepens the level. -/
def block_indent (s : State) (child : Node) : Except Err State :=
  if child.kind == "command" then do
    let c ← err_at_loc (child.namedChild 0) child
    if blockIndents.contains c.text then pure { s with level := s.level + 1 }
    else pure s
  else pure s

/-- Inter-statement separator of `format_block` (the blank-line preservation
and new-line/re-indent decisions before rendering a statement). -/
def block_sep (prev : Option Node) (child : Node) (s : State) : State :=
  match prev with
  | none => s
  | some previous =>
      let s := if child.startPoint.row - previous.endPoint.row > 1
               then s.println "" else s
      if ((!(child.kind == "assignment" && previous.kind == "assignment"))
            && child.kind != "comment")
          || child.startPoint.row != previous.endPoint.row
      then (s.println "").indent else s

/-- Statement terminator of `format_block`: nothing for kinds carrying their
own delimiter, a comma-space between same-row assignments, a semicolon
otherwise. -/
def block_term (child : Node) (next : Option Node) (s : State) : State :=
  if blockStatements.contains child.kind then s
  else
    match next with
    | some nx =>
        if child.kind == "assignment" && nx.kind == "assignment"
            && child.endPoint.row == nx.startPoint.row
        then s.print ", " else s.print ";"
    | none => s.print ";"

/-- One iteration of the statement loop of `format_block`. -/
def block_step (fmt : State → Node → Except Err State) (orig : Nat)
    (prev next : Option Node) (child : Node) (s : State) : Except Err State := do
  let s ← block_dedent s child orig
  let s := block_sep prev child s
  let s ← fmt s child
  let s := { s with extra_indentation := 0 }
  let s ← block_indent s child
  pure (block_term child next s)

/-- Statement loop of `format_block` over the collected children. -/
def block_go (fmt : State → Node → Except Err State) (orig : Nat) :
    Option Node → List Node → State → Except Err State
  | _, [], s => pure s
  | prev, child :: rest, s => do
      let s ← block_step fmt orig prev rest.head? child s
      block_go fmt orig (some child) rest s

/-- Separator-joined formatting loop (the enumerate loops of `format_range`,
`format_multioutput`, `format_field`, `format_attributes` and the superclass
list of `format_classdef`). -/
def join_go (fmt : State → Node → Except Err State) (sep : String) :
    Bool → List Node → State → Except Err State
  | _, [], s => pure s
  | first, c :: rest, s => do
      let s := if first then s else s.print sep
      let s ← fmt s c
      join_go fmt sep false rest s

/-- Plain sequential formatting loop (the child loop of `format_unary`). -/
def fmt_each (fmt : State → Node → Except Err State) :
    List Node → State → Except Err State
  | [], s => pure s
  | c :: rest, s => do
      let s ← fmt s c
      fmt_each fmt rest s

/-- Argument-list loop of `format_arguments`: a comma-space before every
element except the first and those directly after a line continuation. -/
def args_go (fmt : State → Node → Except Err State) :
    Option String → List Node → State → Except Err State
  | _, [], s => pure s
  | prevKind, c :: rest, s => do
      let s := match prevKind with
        | some k => if k != "line_continuation" then s.print ", " else s
        | none => s
      let s ← fmt s c
      args_go fmt (some c.kind) rest s

/-- Child loop of `format_binary`: named children are formatted, unnamed
operator tokens get spaces depending on the sparse flags, and the alignment
column is latched at the first operator. -/
def binary_go (fmt : State → Node → Except Err State) :
    Bool → List Node → State → Except Err State
  | _, [], s => pure s
  | lineCont, child :: rest, s =>
      if child.isNamed then do
        let s ← fmt s child
        binary_go fmt (child.kind == "line_continuation") rest s
      else
        let op := rustTrim child.text
        if s.arguments.sparse_math
            || (s.arguments.sparse_add && addOps.contains op) then
          let s := if !lineCont then s.print " " else s
          let s := s.maybe_set_extra_indentation (s.col - 4 * s.level)
          let s := (s.print op).print " "
          binary_go fmt lineCont rest s
        else
          let s := s.maybe_set_extra_indentation (s.col - 4 * s.level)
          binary_go fmt lineCont rest (s.print op)

/-- Child loop of `format_boolean` (also used for comparison operators):
operators always get surrounding spaces. -/
def boolean_go (fmt : State → Node → Except Err State) :
    Bool → List Node → State → Except Err State
  | _, [], s => pure s
  | lineCont, child :: rest, s =>
      if child.isNamed then do
        let s ← fmt s child
        boolean_go fmt (child.kind == "line_continuation") rest s
      else
        let op := rustTrim child.text
        let s := if !lineCont then s.print " " else s
        let s := s.maybe_set_extra_indentation (s.col - 4 * s.level)
        let s := (s.print op).print " "
        boolean_go fmt lineCont rest s

/-- Child loop of `format_command`: space-joined children, alignment latched
right after the command name. -/
def command_go (fmt : State → Node → Except Err State) :
    Bool → List Node → State → Except Err State
  | _, [], s => pure s
  | first, child :: rest, s => do
      let s := if first then s else s.print " "
      let s ← fmt s child
      let s := if child.kind == "command_name"
               then { s with extra_indentation := s.col - 4 * s.level } else s
      command_go fmt false rest s

/-- Row loop of `format_matrix`: comments force a row break; other rows are
separated by a semicolon-newline-indent when the literal spans several source
lines and by a semicolon-space otherwise. -/
def matrix_go (fmt : State → Node → Except Err State) (multiline : Bool) :
    Bool → List Node → State → Except Err State
  | _, [], s => pure s
  | first, child :: rest, s =>
      if child.kind == "comment" then do
        let s := if !first then s.print ";" else s
        let s ← format_comment s child
        let s := (s.println "").indent
        matrix_go fmt multiline true rest s
      else do
        let s := if !first then
            (if multiline then (s.println ";").indent else s.print "; ")
          else s
        let s ← fmt s child
        matrix_go fmt multiline (if !child.isExtra then false else first) rest s

/-- Element loop of `format_row`: space-joined named children, extras not
counted. -/
def row_go (fmt : State → Node → Except Err State) :
    Bool → List Node → State → Except Err State
  | _, [], s => pure s
  | first, child :: rest, s => do
      let s := if !first && !child.isExtra then s.print " " else s
      let s ← fmt s child
      row_go fmt child.isExtra rest s

/-- Callee scan of `format_fncall`: children up to the opening bracket are
formatted (line continuations skipped); the bracket kind is returned. -/
def fncall_head (fmt : State → Node → Except Err State) :
    List Node → State → Except Err (State × Bool)
  | [], s => pure (s, true)
  | child :: rest, s =>
      if child.kind == "line_continuation" then fncall_head fmt rest s
      else if !child.isNamed && child.text == "(" then pure (s, true)
      else if !child.isNamed && child.text == "\x7b" then pure (s, false)
      else do
        let s ← fmt s child
        fncall_head fmt rest s

/-- Indented line-per-item section loop (property lists, event identifiers,
argument validation statements, class sections): indent, format, newline. -/
def sec_items_go (fmt : State → Node → Except Err State) :
    List Node → State → Except Err State
  | [], s => pure s
  | c :: rest, s => do
      let s ← fmt (s.indent) c
      sec_items_go fmt rest (s.println "")

/-- Method-definition loop of `format_method`: a blank line before every
definition except a first one not preceded by signatures. -/
def meth_defs_go (fmt : State → Node → Except Err State) :
    Bool → List Node → State → Except Err State
  | _, [], s => pure s
  | forceBlank, d :: rest, s => do
      let s := if forceBlank then s.println "" else s
      let s ← fmt (s.indent) d
      meth_defs_go fmt true rest (s.println "")

/-- Single enumeration item of `format_enum`: name, then a parenthesised
comma-joined value list when further named children exist. -/
def enum_item (fmt : State → Node → Except Err State) (s : State)
    (enumeration : Node) : Except Err State :=
  match enumeration.namedChildren with
  | [] => pure s
  | c0 :: rest =>
      let s := print_node s c0
      match rest with
      | [] => pure s
      | c1 :: more => do
          let s ← fmt (s.print " (") c1
          let s ← join_go fmt ", " false more s
          pure (s.print ")")

/-- Separator-joined loop over a pure per-node emitter (the superclass list
of `format_classdef`). -/
def pure_join_go (f : State → Node → State) (sep : String) :
    Bool → List Node → State → State
  | _, [], s => s
  | first, c :: rest, s =>
      let s := if first then s else s.print sep
      pure_join_go f sep false rest (f s c)

/-- Case-clause loop of `format_switch`. -/
def switch_cases_go (fmtN : State → Node → Except Err State)
    (fmtB : Node → Node → State → Except Err State) :
    List Node → State → Except Err State
  | [], s => pure s
  | case :: rest, s => do
      let condition ← err_at_loc (case.childByFieldName "condition") case
      let block := case.children.find? (fun c => c.kind == "block")
      let s := (s.indent).print "case "
      let s ← fmtN s condition
      let s ← print_linter_comment s case
      let s := s.println ""
      let s := { s with level := s.level + 1 }
      let s ← match block with
        | some b => fmtB case b s
        | none => print_non_linter_comments s case
      let s := { s with level := s.level - 1 }
      switch_cases_go fmtN fmtB rest s

/-- Elseif-clause loop of `format_if`; `parent` is the if node, supplying the
sibling walk of `print_non_linter_comments_after`. -/
def elseif_go (fmtN : State → Node → Except Err State)
    (fmtB : Node → Node → State → Except Err State) (parent : Node) :
    List Node → State → Except Err State
  | [], s => pure s
  | clause :: rest, s => do
      let condition ← err_at_loc (clause.childByFieldName "condition") clause
      let block := clause.children.find? (fun c => c.kind == "block")
      let s := (s.indent).print "elseif "
      let s ← fmtN s condition
      let s ← print_linter_comment s clause
      let s := s.println ""
      let s := { s with level := s.level + 1 }
      let s := { s with extra_indentation := 0 }
      let s ← match block with
        | some b => fmtB clause b s
        | none => print_non_linter_comments_after s parent clause
      let s := { s with level := s.level - 1 }
      elseif_go fmtN fmtB parent rest s

/-- Addresses of the mutually recursive formatting routines: one constructor
per Rust function reached through recursion (`Call.node` is the dispatcher
`format_node`; `Call.block` carries the sibling context `format_block` reads
through the tree in Rust). -/
inductive Call where
  | node (n : Node)
  | block (n : Node) (prevRev nexts : List Node)
  | argumentsStatement (n : Node)
  | assignment (n : Node)
  | binary (n : Node)
  | boolean (n : Node)
  | unary (n : Node)
  | parenthesis (n : Node)
  | range (n : Node)
  | multioutput (n : Node)
  | lambda (n : Node)
  | fncall (n : Node)
  | fnarguments (n : Node)
  | command (n : Node)
  | fieldE (n : Node)
  | matrix (n : Node)
  | row (n : Node)
  | whileS (n : Node)
  | tryS (n : Node)
  | switchS (n : Node)
  | ifS (n : Node)
  | forS (n : Node)
  | functionS (n : Node)
  | property (n : Node)
  | classdef (n : Node)
  | attribs (n : Node)
  | attrib (n : Node)
  | propertiesS (n : Node)
  | enumS (n : Node)
  | events (n : Node)
  | method (n : Node)
  | signature (n : Node)

/-- Recursive dispatch of a child node (`format_node(state, child)` in Rust). -/
def callNode (R : Call → State → Except Err State) (s : State) (c : Node) :
    Except Err State :=
  R (.node c) s

/-- Recursive call of `format_block` on a nested block: the Rust call passes
just the block node and reads its siblings through the tree; the model
computes them from the parent at the call site. -/
def callBlock (R : Call → State → Except Err State) (parent blk : Node)
    (s : State) : Except Err State :=
  R (.block blk (prevNamedRev parent blk) (nextNamed parent blk)) s

/-- Dispatcher body, mirroring the kind match of `format_node`.  The `block`
case hands over an empty sibling context: a bare block reached through the
dispatcher (never through the dedicated statement paths) has no recorded
parent in the model. -/
def format_node_body (R : Call → State → Except Err State) (s : State)
    (node : Node) : Except Err State :=
  let k := node.kind
  if k = "arguments_statement" then R (.argumentsStatement node) s
  else if k = "assignment" then R (.assignment node) s
  else if k = "binary_operator" then R (.binary node) s
  else if k = "block" then R (.block node [] []) s
  else if k = "boolean_operator" then R (.boolean node) s
  else if k = "cell" then R (.matrix node) s
  else if k = "class_definition" then R (.classdef node) s
  else if k = "command" then R (.command node) s
  else if k = "comment" then format_comment s node
  else if k = "comparison_operator" then R (.boolean node) s
  else if k = "field_expression" then R (.fieldE node) s
  else if k = "for_statement" then R (.forS node) s
  else if k = "function_call" then R (.fncall node) s
  else if k = "function_definition" then R (.functionS node) s
  else if k = "global_operator" then .ok (format_global s node)
  else if k = "handle_operator" then R (.unary node) s
  else if k = "if_statement" then R (.ifS node) s
  else if k = "indirect_access" then R (.parenthesis node) s
  else if k = "lambda" then R (.lambda node) s
  else if k = "line_continuation" then .ok (format_line_continuation s node)
  else if k = "matrix" then R (.matrix node) s
  else if k = "metaclass_operator" then R (.unary node) s
  else if k = "multioutput_variable" then R (.multioutput node) s
  else if k = "not_operator" then R (.unary node) s
  else if k = "parenthesis" then R (.parenthesis node) s
  else if k = "persistent_operator" then .ok (format_global s node)
  else if k = "postfix_operator" then R (.unary node) s
  else if k = "property" then R (.property node) s
  else if k = "property_name" then .ok (format_property_name s node)
  else if k = "range" then R (.range node) s
  else if k = "row" then R (.row node) s
  else if k = "switch_statement" then R (.switchS node) s
  else if k = "try_statement" then R (.tryS node) s
  else if k = "unary_operator" then R (.unary node) s
  else if k = "while_statement" then R (.whileS node) s
  else .ok (print_node s node)

/-- Statement-block body, mirroring `format_block`: reset the alignment
column, indent, attach hugging comment siblings, run the statement loop,
restore the entry level and end the line. -/
def format_block_body (R : Call → State → Except Err State) (s : State)
    (node : Node) (prevRev nexts : List Node) : Except Err State := do
  let orig := s.level
  let s := { s with extra_indentation := 0 }
  let s := s.indent
  let named := attachPrev prevRev node.namedChildren ++ attachNext nexts
  let s ← block_go (callNode R) orig none named s
  let s := { s with extra_indentation := 0, level := orig }
  pure (s.println "")

/-- Assignment body, mirroring `format_assignment`: both field lookups happen
before any child is rendered. -/
def format_assignment_body (R : Call → State → Except Err State) (s : State)
    (node : Node) : Except Err State := do
  let lhs ← err_at_loc (node.childByFieldName "left") node
  let rhs ← err_at_loc (node.childByFieldName "right") node
  let s ← callNode R s lhs
  let s := s.print " = "
  let s ← callNode R s rhs
  pure { s with extra_indentation := 0 }

/-- Binary-operator body, mirroring `format_binary`. -/
def format_binary_body (R : Call → State → Except Err State) (s : State)
    (node : Node) : Except Err State :=
  let s := s.maybe_set_extra_indentation (s.col - 4 * s.level)
  binary_go (callNode R) false node.children s

/-- Boolean/comparison-operator body, mirroring `format_boolean`. -/
def format_boolean_body (R : Call → State → Except Err State) (s : State)
    (node : Node) : Except Err State :=
  let s := s.maybe_set_extra_indentation (s.col - 4 * s.level)
  boolean_go (callNode R) false node.children s

/-- Unary-like operator body, mirroring `format_unary` (also used for handle,
metaclass, not and postfix operators). -/
def format_unary_body (R : Call → State → Except Err State) (s : State)
    (node : Node) : Except Err State :=
  fmt_each (callNode R)
    (node.children.filter (fun c => c.kind != "line_continuation")) s

/-- Parenthesis body, mirroring `format_parenthesis`. -/
def format_parenthesis_body (R : Call → State → Except Err State) (s : State)
    (node : Node) : Except Err State := do
  let child ← err_at_loc
    (node.namedChildren.find? (fun c => c.kind != "line_continuation")) node
  let s := s.print "("
  let s := s.maybe_set_extra_indentation (s.col - 4 * s.level)
  let s ← callNode R s child
  pure (s.print ")")

/-- Range body, mirroring `format_range`: operands joined by a bare colon,
with `sparse_math` switched off around the operand rendering and restored
afterwards. -/
def format_range_body (R : Call → State → Except Err State) (s : State)
    (node : Node) : Except Err State := do
  let children := node.namedChildren.filter
    (fun c => c.kind != "line_continuation")
  let sparse := s.arguments.sparse_math
  let s := { s with arguments := { s.arguments with sparse_math := false } }
  let s ← join_go (callNode R) ":" true children s
  pure { s with arguments := { s.arguments with sparse_math := sparse } }

/-- Multi-output assignment target body, mirroring `format_multioutput`. -/
def format_multioutput_body (R : Call → State → Except Err State) (s : State)
    (node : Node) : Except Err State := do
  let children := node.namedChildren.filter
    (fun c => c.kind != "line_continuation")
  let s ← join_go (callNode R) ", " true children (s.print "[")
  pure (s.print "]")

/-- Lambda body, mirroring `format_lambda`. -/
def format_lambda_body (R : Call → State → Except Err State) (s : State)
    (node : Node) : Except Err State := do
  let arguments := node.children.find? (fun c => c.kind == "arguments")
  let expression ← err_at_loc (node.childByFieldName "expression") node
  let s := (s.print "@").print "("
  let s := match arguments with
    | some args =>
        print_join_go ", " true
          (args.namedChildren.filter (fun c => c.kind != "line_continuation")) s
    | none => s
  let s := s.print ") "
  callNode R s expression

/-- Function-call/indexing body, mirroring `format_fncall`: scan to the
opening bracket, latch the post-bracket alignment base, render the argument
list, close, restore the previous alignment base. -/
def format_fncall_body (R : Call → State → Except Err State) (s : State)
    (node : Node) : Except Err State := do
  let (s, parens) ← fncall_head (callNode R) node.children s
  let s := if parens then s.print "(" else s.print "\x7b"
  let prev_extra := s.extra_indentation
  let s := { s with extra_indentation := s.col - 4 * s.level }
  let arguments := node.children.find? (fun c => c.kind == "arguments")
  let s ← match arguments with
    | some args => R (.fnarguments args) s
    | none => pure s
  let s := if parens then s.print ")" else s.print "\x7d"
  pure { s with extra_indentation := prev_extra }

/-- Argument-list body, mirroring `format_arguments`. -/
def format_arguments_body (R : Call → State → Except Err State) (s : State)
    (node : Node) : Except Err State :=
  args_go (callNode R) none node.namedChildren s

/-- Command body, mirroring `format_command`. -/
def format_command_body (R : Call → State → Except Err State) (s : State)
    (node : Node) : Except Err State := do
  let s ← command_go (callNode R) true node.children s
  pure { s with extra_indentation := 0 }

/-- Field-access body, mirroring `format_field`. -/
def format_field_body (R : Call → State → Except Err State) (s : State)
    (node : Node) : Except Err State :=
  join_go (callNode R) "." true
    (node.namedChildren.filter (fun c => !c.isExtra)) s

/-- Matrix/cell literal body, mirroring `format_matrix`. -/
def format_matrix_body (R : Call → State → Except Err State) (s : State)
    (node : Node) : Except Err State := do
  let matrix := node.kind == "matrix"
  let multiline := node.startPoint.row != node.endPoint.row
  let s := if matrix then s.print "[" else s.print "\x7b"
  let prev_extra := s.extra_indentation
  let s := { s with extra_indentation := s.col - 4 * s.level }
  let s ← matrix_go (callNode R) multiline true node.namedChildren s
  let s := if matrix then s.print "]" else s.print "\x7d"
  pure { s with extra_indentation := prev_extra }

/-- Matrix-row body, mirroring `format_row`. -/
def format_row_body (R : Call → State → Except Err State) (s : State)
    (node : Node) : Except Err State :=
  row_go (callNode R) true node.namedChildren s

/-- While-statement body, mirroring `format_while`. -/
def format_while_body (R : Call → State → Except Err State) (s : State)
    (node : Node) : Except Err State := do
  let condition ← err_at_loc (node.childByFieldName "condition") node
  let body := node.children.find? (fun c => c.kind == "block")
  let s := s.print "while "
  let s ← callNode R s condition
  let s ← print_linter_comment s node
  let s := s.println ""
  let s := { s with level := s.level + 1 }
  let s ← match body with
    | some b => callBlock R node b s
    | none => print_non_linter_comments s node
  let s := { s with level := s.level - 1 }
  pure ((s.indent).print "end")

/-- Try-statement body, mirroring `format_try`. -/
def format_try_body (R : Call → State → Except Err State) (s : State)
    (node : Node) : Except Err State := do
  let body := node.children.find? (fun c => c.kind == "block")
  let catchC ← err_at_loc
    (node.children.find? (fun c => c.kind == "catch_clause")) node
  let catch_capture := catchC.children.find? (fun c => c.kind == "identifier")
  let catch_body := catchC.children.find? (fun c => c.kind == "block")
  let s := s.println "try"
  let s := { s with level := s.level + 1 }
  let s ← match body with
    | some b => callBlock R node b s
    | none => print_non_linter_comments s node
  let s := { s with level := s.level - 1 }
  let s := (s.indent).print "catch"
  let s := match catch_capture with
    | some capture => print_node (s.print " ") capture
    | none => s
  let s ← print_linter_comment s catchC
  let s := s.println ""
  let s := { s with level := s.level + 1 }
  let s ← match catch_body with
    | some b => callBlock R catchC b s
    | none => print_non_linter_comments s catchC
  let s := { s with level := s.level - 1 }
  pure ((s.indent).print "end")

/-- Switch-statement body, mirroring `format_switch`. -/
def format_switch_body (R : Call → State → Except Err State) (s : State)
    (node : Node) : Except Err State := do
  let condition ← err_at_loc (node.childByFieldName "condition") node
  let cases := node.namedChildren.filter (fun c => c.kind == "case_clause")
  let s := s.print "switch "
  let s ← callNode R s condition
  let s ← print_linter_comment s node
  let s := s.println ""
  let s := { s with level := s.level + 1 }
  let s ← switch_cases_go (callNode R) (callBlock R) cases s
  let otherwise := node.namedChildren.find?
    (fun c => c.kind == "otherwise_clause")
  let s ← match otherwise with
    | some ow => do
        let block := ow.children.find? (fun c => c.kind == "block")
        let s := (s.indent).println "otherwise"
        let s := { s with level := s.level + 1 }
        let s ← match block with
          | some b => callBlock R ow b s
          | none => print_non_linter_comments s ow
        pure { s with level := s.level - 1 }
    | none => pure s
  let s := { s with level := s.level - 1 }
  pure ((s.indent).print "end")

/-- If-statement body, mirroring `format_if`. -/
def format_if_body (R : Call → State → Except Err State) (s : State)
    (node : Node) : Except Err State := do
  let condition ← err_at_loc (node.childByFieldName "condition") node
  let block := node.children.find? (fun c => c.kind == "block")
  let elseif_clauses := node.namedChildren.filter
    (fun c => c.kind == "elseif_clause")
  let else_clause := node.namedChildren.find?
    (fun c => c.kind == "else_clause")
  let s := s.print "if "
  let s ← callNode R s condition
  let s ← print_linter_comment s node
  let s := s.println ""
  let s := { s with level := s.level + 1 }
  let s ← match block with
    | some b => callBlock R node b s
    | none => print_non_linter_comments s node
  let s := { s with level := s.level - 1 }
  let s ← elseif_go (callNode R) (callBlock R) node elseif_clauses s
  let s ← match else_clause with
    | some ec => do
        let block := ec.children.find? (fun c => c.kind == "block")
        let s := (s.indent).println "else"
        let s := { s with level := s.level + 1 }
        let s ← match block with
          | some b => callBlock R ec b s
          | none => print_non_linter_comments_after s node ec
        pure { s with level := s.level - 1 }
    | none => pure s
  pure ((s.indent).print "end")

/-- For/parfor-statement body, mirroring `format_for`. -/
def format_for_body (R : Call → State → Except Err State) (s : State)
    (node : Node) : Except Err State := do
  let parfor ← err_at_loc (node.child 0) node
  let s := (s.print parfor.text).print " "
  let iterator ← err_at_loc
    (node.children.find? (fun c => c.kind == "iterator")) node
  let block := node.children.find? (fun c => c.kind == "block")
  let parfor_options := node.children.find?
    (fun c => c.kind == "parfor_options")
  let s ← match parfor_options with
    | some options => do
        let s := s.print "("
        let it0 ← err_at_loc (iterator.namedChild 0) node
        let s := (print_node s it0).print " = "
        let it1 ← err_at_loc (iterator.namedChild 1) node
        let s ← callNode R s it1
        let s := s.print ", "
        let op0 ← err_at_loc (options.namedChild 0) node
        pure ((print_node s op0).print ")")
    | none => do
        let it0 ← err_at_loc (iterator.namedChild 0) node
        let s := (print_node s it0).print " = "
        let it1 ← err_at_loc (iterator.namedChild 1) node
        callNode R s it1
  let s ← print_linter_comment s node
  let s := s.println ""
  let s := { s with level := s.level + 1 }
  let s ← match block with
    | some b => callBlock R node b s
    | none => print_non_linter_comments s node
  let s := { s with level := s.level - 1 }
  pure ((s.indent).print "end")

/-- Function-definition body, mirroring `format_function`. -/
def format_function_body (R : Call → State → Except Err State) (s : State)
    (node : Node) : Except Err State := do
  let output := node.namedChildren.find? (fun n => n.kind == "function_output")
  let get_set := (node.children.filter (fun n => !n.isNamed)).find?
    (fun n => n.text == "get." || n.text == "set.")
  let name ← err_at_loc (node.childByFieldName "name") node
  let arguments := node.namedChildren.find?
    (fun n => n.kind == "function_arguments")
  let argument_statements := node.namedChildren.filter
    (fun n => n.kind == "arguments_statement")
  let block := node.namedChildren.find? (fun n => n.kind == "block")
  let s := s.print "function "
  let s ← match output with
    | some o => do
        let c0 ← err_at_loc (o.child 0) node
        let s ← callNode R s c0
        pure (s.print " = ")
    | none => pure s
  let s := match get_set with
    | some g => (print_node s g).print "."
    | none => s
  let s := print_node s name
  let s := match arguments with
    | some args =>
        (print_join_go ", " true
          (args.namedChildren.filter (fun c => c.kind != "line_continuation"))
          (s.print "(")).print ")"
    | none => s
  let s := s.println ""
  let s := { s with level := s.level + 1 }
  let s ← sec_items_go (callNode R) argument_statements s
  let s ← match block with
    | some b => callBlock R node b s
    | none => print_non_linter_comments s node
  let s := { s with level := s.level - 1 }
  pure ((s.indent).print "end")

/-- Arguments-validation-block body, mirroring `format_arguments_statement`. -/
def format_arguments_statement_body (R : Call → State → Except Err State)
    (s : State) (node : Node) : Except Err State := do
  let s := { s with extra_indentation := 0 }
  let attributes := node.children.find? (fun c => c.kind == "attributes")
  let properties := node.children.filter (fun c => c.kind == "property")
  let s := s.print "arguments"
  let s ← match attributes with
    | some attrs => do
        let s ← R (.fnarguments attrs) (s.print " (")
        pure (s.print ")")
    | none => pure s
  let s := s.println ""
  let s := { s with level := s.level + 1 }
  let s ← sec_items_go (fun s c => R (.property c) s) properties s
  let s := { s with level := s.level - 1 }
  pure ((s.indent).print "end")

/-- Property body, mirroring `format_property`. -/
def format_property_body (R : Call → State → Except Err State) (s : State)
    (node : Node) : Except Err State := do
  let name ← err_at_loc (node.childByFieldName "name") node
  let dimensions := node.children.find? (fun c => c.kind == "dimensions")
  let class_ := (node.children.filter (fun c => c.id != name.id)).find?
    (fun c => c.kind == "identifier" || c.kind == "property_name")
  let validation_functions := node.children.find?
    (fun c => c.kind == "validation_functions")
  let default_value := node.children.find?
    (fun c => c.kind == "default_value")
  let s := if name.kind == "identifier" then print_node s name
           else format_property_name s name
  let s := match dimensions with
    | some d => format_dimensions (s.print " ") d
    | none => s
  let s ← match class_ with
    | some c => callNode R (s.print " ") c
    | none => pure s
  let s ← match validation_functions with
    | some v => do
        let s ← R (.fnarguments v) (s.print " \x7b")
        pure (s.print "\x7d")
    | none => pure s
  let s ← match default_value with
    | some dv => do
        let c0 ← err_at_loc (dv.namedChild 0) dv
        callNode R (s.print " = ") c0
    | none => pure s
  pure s

/-- Class-definition body, mirroring `format_classdef`: header, then in fixed
order property, enumeration, event and method sections, each indented one
level; the closing keyword is printed without re-indent. -/
def format_classdef_body (R : Call → State → Except Err State) (s : State)
    (node : Node) : Except Err State := do
  let attributes := node.children.find? (fun c => c.kind == "attributes")
  let name ← err_at_loc (node.childByFieldName "name") node
  let superclasses := node.children.find? (fun c => c.kind == "superclasses")
  let properties := node.children.filter (fun c => c.kind == "properties")
  let methods := node.children.filter (fun c => c.kind == "methods")
  let events := node.children.filter (fun c => c.kind == "events")
  let enumerations := node.children.filter (fun c => c.kind == "enumeration")
  let s := s.print "classdef "
  let s ← match attributes with
    | some a => do
        let s ← R (.attribs a) s
        pure (s.print " ")
    | none => pure s
  let s := print_node s name
  let s := match superclasses with
    | some sc =>
        pure_join_go format_property_name " & " true sc.namedChildren
          (s.print " < ")
    | none => s
  let s := s.println ""
  let s := { s with extra_indentation := 0 }
  let s := { s with level := s.level + 1 }
  let s ← sec_items_go (fun s c => R (.propertiesS c) s) properties s
  let s ← sec_items_go (fun s c => R (.enumS c) s) enumerations s
  let s ← sec_items_go (fun s c => R (.events c) s) events s
  let s ← sec_items_go (fun s c => R (.method c) s) methods s
  let s := { s with level := s.level - 1 }
  pure (s.print "end")

/-- Attribute-list body, mirroring `format_attributes`. -/
def format_attributes_body (R : Call → State → Except Err State) (s : State)
    (node : Node) : Except Err State := do
  let attributes := node.children.filter (fun c => c.kind == "attribute")
  let s ← join_go (fun s c => R (.attrib c) s) ", " true attributes
    (s.print "(")
  pure (s.print ")")

/-- Single-attribute body, mirroring `format_attribute`. -/
def format_attribute_body (R : Call → State → Except Err State) (s : State)
    (node : Node) : Except Err State := do
  let identifier ← err_at_loc (node.namedChild 0) node
  let value := node.namedChild 1
  let s := print_node s identifier
  match value with
  | some v => callNode R (s.print "=") v
  | none => pure s

/-- Properties-section body, mirroring `format_properties`. -/
def format_properties_body (R : Call → State → Except Err State) (s : State)
    (node : Node) : Except Err State := do
  let attributes := node.namedChildren.find? (fun c => c.kind == "attributes")
  let properties := node.namedChildren.filter (fun c => c.kind == "property")
  let s := s.print "properties"
  let s ← match attributes with
    | some a => R (.attribs a) (s.print " ")
    | none => pure s
  let s := s.println ""
  let s := { s with level := s.level + 1 }
  let s ← sec_items_go (fun s c => R (.property c) s) properties s
  let s := { s with level := s.level - 1 }
  pure ((s.indent).print "end")

/-- Enumeration-section body, mirroring `format_enum`. -/
def format_enum_body (R : Call → State → Except Err State) (s : State)
    (node : Node) : Except Err State := do
  let attributes := node.namedChildren.find? (fun c => c.kind == "attributes")
  let enums := node.namedChildren.filter (fun c => c.kind == "enum")
  let s := s.print "enumeration"
  let s ← match attributes with
    | some a => R (.attribs a) (s.print " ")
    | none => pure s
  let s := s.println ""
  let s := { s with level := s.level + 1 }
  let s ← sec_items_go (enum_item (callNode R)) enums s
  let s := { s with level := s.level - 1 }
  pure ((s.indent).print "end")

/-- Events-section body, mirroring `format_events`. -/
def format_events_body (R : Call → State → Except Err State) (s : State)
    (node : Node) : Except Err State := do
  let attributes := node.namedChildren.find? (fun c => c.kind == "attributes")
  let identifiers := node.namedChildren.filter
    (fun c => c.kind == "identifier")
  let s := s.print "events"
  let s ← match attributes with
    | some a => R (.attribs a) (s.print " ")
    | none => pure s
  let s := s.println ""
  let s := { s with level := s.level + 1 }
  let s ← sec_items_go (fun s c => pure (print_node s c)) identifiers s
  let s := { s with level := s.level - 1 }
  pure ((s.indent).print "end")

/-- Methods-section body, mirroring `format_method`. -/
def format_method_body (R : Call → State → Except Err State) (s : State)
    (node : Node) : Except Err State := do
  let attributes := node.namedChildren.find? (fun c => c.kind == "attributes")
  let definitions := node.namedChildren.filter
    (fun c => c.kind == "function_definition")
  let signatures := node.namedChildren.filter
    (fun c => c.kind == "function_signature")
  let s := s.print "methods"
  let s ← match attributes with
    | some a => R (.attribs a) (s.print " ")
    | none => pure s
  let s := s.println ""
  let s := { s with level := s.level + 1 }
  let s ← sec_items_go (fun s c => R (.signature c) s) signatures s
  let s ← meth_defs_go (fun s c => R (.functionS c) s) (!signatures.isEmpty)
    definitions s
  let s := { s with level := s.level - 1 }
  pure ((s.indent).print "end")

/-- Function-signature body, mirroring `format_signature`. -/
def format_signature_body (R : Call → State → Except Err State) (s : State)
    (node : Node) : Except Err State := do
  let output := node.namedChildren.find? (fun n => n.kind == "function_output")
  let get_set := (node.children.filter (fun n => !n.isNamed)).find?
    (fun n => n.text == "get." || n.text == "set.")
  let name ← err_at_loc (node.childByFieldName "name") node
  let arguments := node.namedChildren.find?
    (fun n => n.kind == "function_arguments")
  let s ← match output with
    | some o => do
        let c0 ← err_at_loc (o.child 0) o
        let s ← callNode R s c0
        pure (s.print " = ")
    | none => pure s
  let s := match get_set with
    | some g => (print_node s g).print "."
    | none => s
  let s := print_node s name
  let s := match arguments with
    | some args =>
        (print_join_go ", " true
          (args.namedChildren.filter (fun c => c.kind != "line_continuation"))
          (s.print "(")).print ")"
    | none => s
  pure s

/-- One unfolding of the recursion: dispatch a call address to its body. -/
def step (R : Call → State → Except Err State) : Call → State →
    Except Err State
  | .node n, s => format_node_body R s n
  | .block n pr nx, s => format_block_body R s n pr nx
  | .argumentsStatement n, s => format_arguments_statement_body R s n
  | .assignment n, s => format_assignment_body R s n
  | .binary n, s => format_binary_body R s n
  | .boolean n, s => format_boolean_body R s n
  | .unary n, s => format_unary_body R s n
  | .parenthesis n, s => format_parenthesis_body R s n
  | .range n, s => format_range_body R s n
  | .multioutput n, s => format_multioutput_body R s n
  | .lambda n, s => format_lambda_body R s n
  | .fncall n, s => format_fncall_body R s n
  | .fnarguments n, s => format_arguments_body R s n
  | .command n, s => format_command_body R s n
  | .fieldE n, s => format_field_body R s n
  | .matrix n, s => format_matrix_body R s n
  | .row n, s => format_row_body R s n
  | .whileS n, s => format_while_body R s n
  | .tryS n, s => format_try_body R s n
  | .switchS n, s => format_switch_body R s n
  | .ifS n, s => format_if_body R s n
  | .forS n, s => format_for_body R s n
  | .functionS n, s => format_function_body R s n
  | .property n, s => format_property_body R s n
  | .classdef n, s => format_classdef_body R s n
  | .attribs n, s => format_attributes_body R s n
  | .attrib n, s => format_attribute_body R s n
  | .propertiesS n, s => format_properties_body R s n
  | .enumS n, s => format_enum_body R s n
  | .events n, s => format_events_body R s n
  | .method n, s => format_method_body R s n
  | .signature n, s => format_signature_body R s n

/-- Fuel-indexed interpreter of the mutually recursive formatting routines:
each nested call costs one unit of fuel, and exhausted fuel is the only
behaviour the Rust original does not share. -/
def run (fuel : Nat) : Call → State → Except Err State :=
  Nat.rec (motive := fun _ => Call → State → Except Err State)
    (fun _ _ => .error .outOfFuel) (fun _ ih => step ih) fuel

theorem run_zero (c : Call) (s : State) :
    run 0 c s = .error .outOfFuel := rfl

theorem run_succ (f : Nat) : run (f + 1) = step (run f) := rfl

/-- Dispatcher entry point, mirroring `format_node`. -/
def format_node (fuel : Nat) (s : State) (n : Node) : Except Err State :=
  run fuel (.node n) s

/-- Statement-block entry point, mirroring `format_block`; the two lists are
the named siblings before (nearest first) and after the block. -/
def format_block (fuel : Nat) (s : State) (n : Node)
    (prevRev nexts : List Node) : Except Err State :=
  run fuel (.block n prevRev nexts) s

/-- Entry point mirroring `format_assignment`. -/
def format_assignment (fuel : Nat) (s : State) (n : Node) :
    Except Err State :=
  run fuel (.assignment n) s

/-- Entry point mirroring `format_binary`. -/
def format_binary (fuel : Nat) (s : State) (n : Node) : Except Err State :=
  run fuel (.binary n) s

/-- Entry point mirroring `format_boolean`. -/
def format_boolean (fuel : Nat) (s : State) (n : Node) : Except Err State :=
  run fuel (.boolean n) s

/-- Entry point mirroring `format_unary`. -/
def format_unary (fuel : Nat) (s : State) (n : Node) : Except Err State :=
  run fuel (.unary n) s

/-- Entry point mirroring `format_parenthesis`. -/
def format_parenthesis (fuel : Nat) (s : State) (n : Node) :
    Except Err State :=
  run fuel (.parenthesis n) s

/-- Entry point mirroring `format_range`. -/
def format_range (fuel : Nat) (s : State) (n : Node) : Except Err State :=
  run fuel (.range n) s

/-- Entry point mirroring `format_multioutput`. -/
def format_multioutput (fuel : Nat) (s : State) (n : Node) :
    Except Err State :=
  run fuel (.multioutput n) s

/-- Entry point mirroring `format_lambda`. -/
def format_lambda (fuel : Nat) (s : State) (n : Node) : Except Err State :=
  run fuel (.lambda n) s

/-- Entry point mirroring `format_fncall`. -/
def format_fncall (fuel : Nat) (s : State) (n : Node) : Except Err State :=
  run fuel (.fncall n) s

/-- Entry point mirroring `format_arguments`. -/
def format_arguments (fuel : Nat) (s : State) (n : Node) : Except Err State :=
  run fuel (.fnarguments n) s

/-- Entry point mirroring `format_command`. -/
def format_command (fuel : Nat) (s : State) (n : Node) : Except Err State :=
  run fuel (.command n) s

/-- Entry point mirroring `format_field`. -/
def format_field (fuel : Nat) (s : State) (n : Node) : Except Err State :=
  run fuel (.fieldE n) s

/-- Entry point mirroring `format_matrix`. -/
def format_matrix (fuel : Nat) (s : State) (n : Node) : Except Err State :=
  run fuel (.matrix n) s

/-- Entry point mirroring `format_row`. -/
def format_row (fuel : Nat) (s : State) (n : Node) : Except Err State :=
  run fuel (.row n) s

/-- Entry point mirroring `format_while`. -/
def format_while (fuel : Nat) (s : State) (n : Node) : Except Err State :=
  run fuel (.whileS n) s

/-- Entry point mirroring `format_try`. -/
def format_try (fuel : Nat) (s : State) (n : Node) : Except Err State :=
  run fuel (.tryS n) s

/-- Entry point mirroring `format_switch`. -/
def format_switch (fuel : Nat) (s : State) (n : Node) : Except Err State :=
  run fuel (.switchS n) s

/-- Entry point mirroring `format_if`. -/
def format_if (fuel : Nat) (s : State) (n : Node) : Except Err State :=
  run fuel (.ifS n) s

/-- Entry point mirroring `format_for`. -/
def format_for (fuel : Nat) (s : State) (n : Node) : Except Err State :=
  run fuel (.forS n) s

/-- Entry point mirroring `format_function`. -/
def format_function (fuel : Nat) (s : State) (n : Node) : Except Err State :=
  run fuel (.functionS n) s

/-- Entry point mirroring `format_arguments_statement`. -/
def format_arguments_statement (fuel : Nat) (s : State) (n : Node) :
    Except Err State :=
  run fuel (.argumentsStatement n) s

/-- Entry point mirroring `format_property`. -/
def format_property (fuel : Nat) (s : State) (n : Node) : Except Err State :=
  run fuel (.property n) s

/-- Entry point mirroring `format_classdef`. -/
def format_classdef (fuel : Nat) (s : State) (n : Node) : Except Err State :=
  run fuel (.classdef n) s

/-- Entry point mirroring `format_attributes`. -/
def format_attributes (fuel : Nat) (s : State) (n : Node) :
    Except Err State :=
  run fuel (.attribs n) s

/-- Entry point mirroring `format_attribute`. -/
def format_attribute (fuel : Nat) (s : State) (n : Node) : Except Err State :=
  run fuel (.attrib n) s

/-- Entry point mirroring `format_properties`. -/
def format_properties (fuel : Nat) (s : State) (n : Node) :
    Except Err State :=
  run fuel (.propertiesS n) s

/-- Entry point mirroring `format_enum`. -/
def format_enum (fuel : Nat) (s : State) (n : Node) : Except Err State :=
  run fuel (.enumS n) s

/-- Entry point mirroring `format_events`. -/
def format_events (fuel : Nat) (s : State) (n : Node) : Except Err State :=
  run fuel (.events n) s

/-- Entry point mirroring `format_method`. -/
def format_method (fuel : Nat) (s : State) (n : Node) : Except Err State :=
  run fuel (.method n) s

/-- Entry point mirroring `format_signature`. -/
def format_signature (fuel : Nat) (s : State) (n : Node) : Except Err State :=
  run fuel (.signature n) s

/-- Formatting driver, mirroring `beautify` from the point the external
tree-sitter parser has produced the tree: refuse a tree whose root reports a
syntax error, otherwise render the root block from a fresh state and return
the accumulated text. -/
def beautify (fuel : Nat) (root : Node) (arguments : Arguments) :
    Except Err String :=
  if root.hasError then .error .parseErr
  else
    (format_block fuel
      { formatted := "", arguments := arguments, col := 0, row := 0,
        level := 0, extra_indentation := 0 } root [] []).map State.formatted

attribute [simp] print_arguments println_arguments indent_arguments
  maybe_set_arguments printTimes_arguments

@[simp] theorem print_node_arguments (s : State) (n : Node) :
    (print_node s n).arguments = s.arguments := rfl

@[simp] theorem format_line_continuation_arguments (s : State) (n : Node) :
    (format_line_continuation s n).arguments = s.arguments := by
  unfold format_line_continuation
  split <;> simp

@[simp] theorem print_join_go_arguments (sep : String) (first : Bool)
    (l : List Node) (s : State) :
    (print_join_go sep first l s).arguments = s.arguments := by
  induction l generalizing first s with
  | nil => rfl
  | cons c rest ih =>
      unfold print_join_go
      split <;> simp [ih]

@[simp] theorem print_each_node_arguments (l : List Node) (s : State) :
    (print_each_node l s).arguments = s.arguments := by
  induction l generalizing s with
  | nil => rfl
  | cons c rest ih => simp [print_each_node, ih]

@[simp] theorem pure_join_go_arguments (f : State → Node → State)
    (hf : ∀ s c, (f s c).arguments = s.arguments) (sep : String)
    (first : Bool) (l : List Node) (s : State) :
    (pure_join_go f sep first l s).arguments = s.arguments := by
  induction l generalizing first s with
  | nil => rfl
  | cons c rest ih =>
      unfold pure_join_go
      split <;> simp [ih, hf]

@[simp] theorem format_global_arguments (s : State) (n : Node) :
    (format_global s n).arguments = s.arguments := by
  simp [format_global]

@[simp] theorem format_property_name_arguments (s : State) (n : Node) :
    (format_property_name s n).arguments = s.arguments := by
  simp [format_property_name]

@[simp] theorem format_dimensions_arguments (s : State) (n : Node) :
    (format_dimensions s n).arguments = s.arguments := by
  simp [format_dimensions]

@[simp] theorem cmt_lines_go_arguments (l : List String) (s : State) :
    (cmt_lines_go l s).arguments = s.arguments := by
  induction l generalizing s with
  | nil => rfl
  | cons x rest ih => simp [cmt_lines_go, ih]

@[simp] theorem cmt_multi_go_arguments (b : Bool) (l : List String)
    (s : State) : (cmt_multi_go b l s).arguments = s.arguments := by
  induction l generalizing b s with
  | nil => rfl
  | cons x rest ih =>
      simp only [cmt_multi_go]
      split_ifs <;> simp [ih]

@[simp] theorem block_sep_arguments (p : Option Node) (c : Node) (s : State) :
    (block_sep p c s).arguments = s.arguments := by
  unfold block_sep
  cases p with
  | none => rfl
  | some u => dsimp only; split <;> split <;> simp

@[simp] theorem block_term_arguments (c : Node) (nx : Option Node)
    (s : State) : (block_term c nx s).arguments = s.arguments := by
  unfold block_term
  split
  · rfl
  · cases nx with
    | none => simp
    | some u => dsimp only; split <;> simp

/-- Success decomposition of an `Except` bind. -/
theorem bind_ok_elim {α β : Type} {m : Except Err α} {k : α → Except Err β}
    {b : β} (h : (m >>= k) = .ok b) : ∃ a, m = .ok a ∧ k a = .ok b := by
  cases m with
  | error e => simp [Bind.bind, Except.bind] at h
  | ok a => exact ⟨a, rfl, by simpa [Bind.bind, Except.bind] using h⟩

/-- The configuration-preservation predicate: every successful outcome of the
computation carries the arguments of the starting state. -/
def PresA (s : State) (m : Except Err State) : Prop :=
  ∀ s', m = .ok s' → s'.arguments = s.arguments

theorem presA_ok {s t : State} (h : t.arguments = s.arguments) :
    PresA s (.ok t) := by
  intro s' hs
  cases hs
  exact h

theorem presA_pure {s t : State} (h : t.arguments = s.arguments) :
    PresA s (pure t) :=
  presA_ok h

theorem presA_error {s : State} {e : Err} : PresA s (.error e) := by
  intro s' hs
  cases hs

theorem presA_bind {s : State} {m : Except Err State}
    {k : State → Except Err State} (h1 : PresA s m)
    (h2 : ∀ s1, s1.arguments = s.arguments → PresA s1 (k s1)) :
    PresA s (m >>= k) := by
  intro s' hs
  rcases bind_ok_elim hs with ⟨s1, hm, hk⟩
  have ha := h1 s1 hm
  rw [h2 s1 ha s' hk, ha]

theorem presA_bind_any {α : Type} {s : State} {m : Except Err α}
    {k : α → Except Err State} (h : ∀ a, PresA s (k a)) :
    PresA s (m >>= k) := by
  intro s' hs
  rcases bind_ok_elim hs with ⟨a, _, hk⟩
  exact h a s' hk

theorem presA_format_comment (s : State) (n : Node) :
    PresA s (format_comment s n) := by
  intro s' h
  simp only [format_comment] at h
  split at h
  · split at h
    · split at h
      · simp only [Except.ok.injEq] at h
        subst h
        simp
      · simp at h
    · simp only [Except.ok.injEq] at h
      subst h
      simp
  · split at h <;> split at h <;>
      (simp only [Except.ok.injEq] at h; subst h; simp [apply_ite State.arguments])

theorem presA_comments_fold (l : List Node) (s : State) :
    PresA s (comments_fold l s) := by
  induction l generalizing s with
  | nil => exact presA_pure rfl
  | cons c rest ih =>
      refine presA_bind (presA_format_comment s c) ?_
      intro s1 ha
      intro s' h
      rw [ih s1 s' h, ha]

theorem presA_print_linter_comment (s : State) (n : Node) :
    PresA s (print_linter_comment s n) :=
  presA_comments_fold _ s

theorem presA_nlc_fold (l : List Node) (s : State) :
    PresA s (nlc_fold l s) := by
  induction l generalizing s with
  | nil => exact presA_pure rfl
  | cons c rest ih =>
      refine presA_bind ?_ ?_
      · intro s' h
        have hx := presA_format_comment (s.indent) c s' h
        rw [indent_arguments] at hx
        exact hx
      · intro s1 _
        intro s' h
        have hx := ih (s1.println "") s' h
        rw [println_arguments] at hx
        exact hx

theorem presA_print_non_linter_comments (s : State) (n : Node) :
    PresA s (print_non_linter_comments s n) :=
  presA_nlc_fold _ s

theorem presA_print_non_linter_comments_after (s : State) (p n : Node) :
    PresA s (print_non_linter_comments_after s p n) :=
  presA_nlc_fold _ s

theorem presA_mono {s t : State} (hts : t.arguments = s.arguments)
    {m : Except Err State} (h : PresA t m) : PresA s m :=
  fun s' hm => (h s' hm).trans hts

theorem pure_ok {α : Type} {a b : α} (h : (pure a : Except Err α) = .ok b) :
    a = b := by
  simpa [Pure.pure, Except.pure] using h

theorem presA_join_go {fmt : State → Node → Except Err State}
    (hf : ∀ s c, PresA s (fmt s c)) (sep : String) :
    ∀ (l : List Node) (first : Bool) (s : State),
      PresA s (join_go fmt sep first l s) := by
  intro l
  induction l with
  | nil => intro first s; exact presA_pure rfl
  | cons c rest ih =>
      intro first s
      simp only [join_go]
      exact presA_bind
        (presA_mono (by simp [apply_ite State.arguments]) (hf _ c))
        (fun s1 _ => ih false s1)

theorem presA_fmt_each {fmt : State → Node → Except Err State}
    (hf : ∀ s c, PresA s (fmt s c)) :
    ∀ (l : List Node) (s : State), PresA s (fmt_each fmt l s) := by
  intro l
  induction l with
  | nil => intro s; exact presA_pure rfl
  | cons c rest ih =>
      intro s
      simp only [fmt_each]
      exact presA_bind (hf s c) (fun s1 _ => ih s1)

theorem presA_args_go {fmt : State → Node → Except Err State}
    (hf : ∀ s c, PresA s (fmt s c)) :
    ∀ (l : List Node) (pk : Option String) (s : State),
      PresA s (args_go fmt pk l s) := by
  intro l
  induction l with
  | nil => intro pk s; exact presA_pure rfl
  | cons c rest ih =>
      intro pk s
      simp only [args_go]
      refine presA_bind (presA_mono ?_ (hf _ c)) (fun s1 _ => ih _ s1)
      cases pk <;> simp [apply_ite State.arguments]

theorem presA_binary_go {fmt : State → Node → Except Err State}
    (hf : ∀ s c, PresA s (fmt s c)) :
    ∀ (l : List Node) (lc : Bool) (s : State),
      PresA s (binary_go fmt lc l s) := by
  intro l
  induction l with
  | nil => intro lc s; exact presA_pure rfl
  | cons c rest ih =>
      intro lc s
      simp only [binary_go]
      split
      · exact presA_bind (hf s c) (fun s1 _ => ih _ s1)
      · split
        · exact presA_mono (by simp [apply_ite State.arguments]) (ih lc _)
        · exact presA_mono (by simp) (ih lc _)

theorem presA_boolean_go {fmt : State → Node → Except Err State}
    (hf : ∀ s c, PresA s (fmt s c)) :
    ∀ (l : List Node) (lc : Bool) (s : State),
      PresA s (boolean_go fmt lc l s) := by
  intro l
  induction l with
  | nil => intro lc s; exact presA_pure rfl
  | cons c rest ih =>
      intro lc s
      simp only [boolean_go]
      split
      · exact presA_bind (hf s c) (fun s1 _ => ih _ s1)
      · exact presA_mono (by simp [apply_ite State.arguments]) (ih lc _)

theorem presA_command_go {fmt : State → Node → Except Err State}
    (hf : ∀ s c, PresA s (fmt s c)) :
    ∀ (l : List Node) (first : Bool) (s : State),
      PresA s (command_go fmt first l s) := by
  intro l
  induction l with
  | nil => intro first s; exact presA_pure rfl
  | cons c rest ih =>
      intro first s
      simp only [command_go]
      refine presA_bind
        (presA_mono (by simp [apply_ite State.arguments]) (hf _ c))
        (fun s1 _ => ?_)
      exact presA_mono (by simp [apply_ite State.arguments]) (ih false _)

theorem presA_matrix_go {fmt : State → Node → Except Err State}
    (hf : ∀ s c, PresA s (fmt s c)) (ml : Bool) :
    ∀ (l : List Node) (first : Bool) (s : State),
      PresA s (matrix_go fmt ml first l s) := by
  intro l
  induction l with
  | nil => intro first s; exact presA_pure rfl
  | cons c rest ih =>
      intro first s
      simp only [matrix_go]
      split
      · refine presA_bind
          (presA_mono (by simp [apply_ite State.arguments])
            (presA_format_comment _ c))
          (fun s1 _ => ?_)
        exact presA_mono (by simp) (ih true _)
      · refine presA_bind (presA_mono ?_ (hf _ c)) (fun s1 _ => ih _ s1)
        split <;> simp [apply_ite State.arguments]

theorem presA_row_go {fmt : State → Node → Except Err State}
    (hf : ∀ s c, PresA s (fmt s c)) :
    ∀ (l : List Node) (first : Bool) (s : State),
      PresA s (row_go fmt first l s) := by
  intro l
  induction l with
  | nil => intro first s; exact presA_pure rfl
  | cons c rest ih =>
      intro first s
      simp only [row_go]
      exact presA_bind
        (presA_mono (by simp [apply_ite State.arguments]) (hf _ c))
        (fun s1 _ => ih _ s1)

/-- Pair-valued analogue of `PresA` for the callee scan of `format_fncall`. -/
def PresAP (s : State) (m : Except Err (State × Bool)) : Prop :=
  ∀ p, m = .ok p → p.1.arguments = s.arguments

theorem presAP_fncall_head {fmt : State → Node → Except Err State}
    (hf : ∀ s c, PresA s (fmt s c)) :
    ∀ (l : List Node) (s : State), PresAP s (fncall_head fmt l s) := by
  intro l
  induction l with
  | nil =>
      intro s p hp
      cases pure_ok hp
      rfl
  | cons c rest ih =>
      intro s
      simp only [fncall_head]
      split
      · exact ih s
      · split
        · intro p hp
          cases pure_ok hp
          rfl
        · split
          · intro p hp
            cases pure_ok hp
            rfl
          · intro p hp
            rcases bind_ok_elim hp with ⟨s1, h1, h2⟩
            rw [ih s1 p h2, hf s c s1 h1]

theorem presA_sec_items_go {fmt : State → Node → Except Err State}
    (hf : ∀ s c, PresA s (fmt s c)) :
    ∀ (l : List Node) (s : State), PresA s (sec_items_go fmt l s) := by
  intro l
  induction l with
  | nil => intro s; exact presA_pure rfl
  | cons c rest ih =>
      intro s
      simp only [sec_items_go]
      refine presA_bind (presA_mono (by simp) (hf _ c)) (fun s1 _ => ?_)
      exact presA_mono (by simp) (ih _)

theorem presA_meth_defs_go {fmt : State → Node → Except Err State}
    (hf : ∀ s c, PresA s (fmt s c)) :
    ∀ (l : List Node) (b : Bool) (s : State),
      PresA s (meth_defs_go fmt b l s) := by
  intro l
  induction l with
  | nil => intro b s; exact presA_pure rfl
  | cons c rest ih =>
      intro b s
      simp only [meth_defs_go]
      refine presA_bind
        (presA_mono (by simp [apply_ite State.arguments]) (hf _ c))
        (fun s1 _ => ?_)
      exact presA_mono (by simp) (ih _ _)

theorem presA_enum_item {fmt : State → Node → Except Err State}
    (hf : ∀ s c, PresA s (fmt s c)) (s : State) (n : Node) :
    PresA s (enum_item fmt s n) := by
  simp only [enum_item]
  cases n.namedChildren with
  | nil => exact presA_pure rfl
  | cons c0 rest =>
      cases rest with
      | nil => exact presA_pure rfl
      | cons c1 more =>
          refine presA_bind (presA_mono (by simp) (hf _ c1)) (fun s1 _ => ?_)
          refine presA_bind (presA_join_go hf ", " more false s1)
            (fun s2 _ => ?_)
          exact presA_pure (by simp)

theorem presA_block_dedent (s : State) (child : Node) (orig : Nat) :
    PresA s (block_dedent s child orig) := by
  intro s' h
  simp only [block_dedent] at h
  split at h
  · rcases bind_ok_elim h with ⟨c, _, hk⟩
    split at hk <;> (cases pure_ok hk; rfl)
  · cases pure_ok h
    rfl

theorem presA_block_indent (s : State) (child : Node) :
    PresA s (block_indent s child) := by
  intro s' h
  simp only [block_indent] at h
  split at h
  · rcases bind_ok_elim h with ⟨c, _, hk⟩
    split at hk <;> (cases pure_ok hk; rfl)
  · cases pure_ok h
    rfl

theorem presA_block_step {fmt : State → Node → Except Err State}
    (hf : ∀ s c, PresA s (fmt s c)) (orig : Nat) (p nx : Option Node)
    (child : Node) (s : State) :
    PresA s (block_step fmt orig p nx child s) := by
  simp only [block_step]
  refine presA_bind (presA_block_dedent s child orig) (fun s1 _ => ?_)
  refine presA_bind (presA_mono (block_sep_arguments p child s1) (hf _ child))
    (fun s2 _ => ?_)
  refine presA_bind (presA_mono (by simp) (presA_block_indent _ child))
    (fun s3 _ => ?_)
  exact presA_pure (block_term_arguments child nx s3)

theorem presA_block_go {fmt : State → Node → Except Err State}
    (hf : ∀ s c, PresA s (fmt s c)) (orig : Nat) :
    ∀ (l : List Node) (p : Option Node) (s : State),
      PresA s (block_go fmt orig p l s) := by
  intro l
  induction l with
  | nil => intro p s; exact presA_pure rfl
  | cons c rest ih =>
      intro p s
      simp only [block_go]
      exact presA_bind (presA_block_step hf orig p rest.head? c s)
        (fun s1 _ => ih _ s1)

theorem presA_switch_cases_go {fmtN : State → Node → Except Err State}
    {fmtB : Node → Node → State → Except Err State}
    (hN : ∀ s c, PresA s (fmtN s c)) (hB : ∀ p b s, PresA s (fmtB p b s)) :
    ∀ (l : List Node) (s : State), PresA s (switch_cases_go fmtN fmtB l s) := by
  intro l
  induction l with
  | nil => intro s; exact presA_pure rfl
  | cons case rest ih =>
      intro s
      simp only [switch_cases_go]
      refine presA_bind_any (fun condition => ?_)
      refine presA_bind (presA_mono (by simp) (hN _ condition))
        (fun s1 _ => ?_)
      refine presA_bind (presA_print_linter_comment s1 case) (fun s2 _ => ?_)
      cases case.children.find? (fun c => c.kind == "block") with
      | some b =>
          refine presA_bind (presA_mono (by simp) (hB case b _))
            (fun s3 _ => ?_)
          exact presA_mono (by simp) (ih _)
      | none =>
          refine presA_bind
            (presA_mono (by simp) (presA_print_non_linter_comments _ case))
            (fun s3 _ => ?_)
          exact presA_mono (by simp) (ih _)

theorem presA_elseif_go {fmtN : State → Node → Except Err State}
    {fmtB : Node → Node → State → Except Err State}
    (hN : ∀ s c, PresA s (fmtN s c)) (hB : ∀ p b s, PresA s (fmtB p b s))
    (parent : Node) :
    ∀ (l : List Node) (s : State),
      PresA s (elseif_go fmtN fmtB parent l s) := by
  intro l
  induction l with
  | nil => intro s; exact presA_pure rfl
  | cons clause rest ih =>
      intro s
      simp only [elseif_go]
      refine presA_bind_any (fun condition => ?_)
      refine presA_bind (presA_mono (by simp) (hN _ condition))
        (fun s1 _ => ?_)
      refine presA_bind (presA_print_linter_comment s1 clause)
        (fun s2 _ => ?_)
      cases clause.children.find? (fun c => c.kind == "block") with
      | some b =>
          refine presA_bind (presA_mono (by simp) (hB clause b _))
            (fun s3 _ => ?_)
          exact presA_mono (by simp) (ih _)
      | none =>
          refine presA_bind
            (presA_mono (by simp)
              (presA_print_non_linter_comments_after _ parent clause))
            (fun s3 _ => ?_)
          exact presA_mono (by simp) (ih _)

theorem presA_callNode {R : Call → State → Except Err State}
    (hR : ∀ c s, PresA s (R c s)) :
    ∀ s c, PresA s (callNode R s c) :=
  fun s c => hR (.node c) s

theorem presA_callBlock {R : Call → State → Except Err State}
    (hR : ∀ c s, PresA s (R c s)) :
    ∀ p b s, PresA s (callBlock R p b s) :=
  fun _ _ s => hR _ s

theorem presA_ite {s : State} {c : Prop} [Decidable c]
    {a b : Except Err State} (ha : PresA s a) (hb : PresA s b) :
    PresA s (ite c a b) := by
  by_cases h : c
  · rwa [if_pos h]
  · rwa [if_neg h]

theorem presA_format_node_body {R : Call → State → Except Err State}
    (hR : ∀ c s, PresA s (R c s)) (s : State) (n : Node) :
    PresA s (format_node_body R s n) := by
  simp only [format_node_body]
  repeat'
    first
      | exact presA_format_comment s n
      | exact presA_ok (by simp)
      | exact hR _ s
      | apply presA_ite

theorem presA_format_block_body {R : Call → State → Except Err State}
    (hR : ∀ c s, PresA s (R c s)) (s : State) (n : Node)
    (pr nx : List Node) : PresA s (format_block_body R s n pr nx) := by
  simp only [format_block_body]
  refine presA_bind
    (presA_mono (by simp) (presA_block_go (presA_callNode hR) _ _ _ _))
    (fun s1 _ => ?_)
  exact presA_pure (by simp)

theorem presA_format_assignment_body {R : Call → State → Except Err State}
    (hR : ∀ c s, PresA s (R c s)) (s : State) (n : Node) :
    PresA s (format_assignment_body R s n) := by
  simp only [format_assignment_body]
  refine presA_bind_any (fun lhs => presA_bind_any (fun rhs => ?_))
  refine presA_bind (presA_callNode hR s lhs) (fun s1 _ => ?_)
  refine presA_bind (presA_mono (by simp) (presA_callNode hR _ rhs))
    (fun s2 _ => ?_)
  exact presA_pure (by simp)

theorem presA_format_binary_body {R : Call → State → Except Err State}
    (hR : ∀ c s, PresA s (R c s)) (s : State) (n : Node) :
    PresA s (format_binary_body R s n) := by
  simp only [format_binary_body]
  exact presA_mono (by simp) (presA_binary_go (presA_callNode hR) _ _ _)

theorem presA_format_boolean_body {R : Call → State → Except Err State}
    (hR : ∀ c s, PresA s (R c s)) (s : State) (n : Node) :
    PresA s (format_boolean_body R s n) := by
  simp only [format_boolean_body]
  exact presA_mono (by simp) (presA_boolean_go (presA_callNode hR) _ _ _)

theorem presA_format_unary_body {R : Call → State → Except Err State}
    (hR : ∀ c s, PresA s (R c s)) (s : State) (n : Node) :
    PresA s (format_unary_body R s n) := by
  simp only [format_unary_body]
  exact presA_fmt_each (presA_callNode hR) _ s

theorem presA_format_parenthesis_body {R : Call → State → Except Err State}
    (hR : ∀ c s, PresA s (R c s)) (s : State) (n : Node) :
    PresA s (format_parenthesis_body R s n) := by
  simp only [format_parenthesis_body]
  refine presA_bind_any (fun child => ?_)
  refine presA_bind (presA_mono (by simp) (presA_callNode hR _ child))
    (fun s1 _ => ?_)
  exact presA_pure (by simp)

theorem presA_format_range_body {R : Call → State → Except Err State}
    (hR : ∀ c s, PresA s (R c s)) (s : State) (n : Node) :
    PresA s (format_range_body R s n) := by
  intro s' h
  simp only [format_range_body] at h
  rcases bind_ok_elim h with ⟨s1, h1, h2⟩
  cases pure_ok h2
  have ha : s1.arguments =
      { s.arguments with sparse_math := false } :=
    presA_join_go (presA_callNode hR) ":" _ true _ s1 h1
  simp [ha]

theorem presA_format_multioutput_body {R : Call → State → Except Err State}
    (hR : ∀ c s, PresA s (R c s)) (s : State) (n : Node) :
    PresA s (format_multioutput_body R s n) := by
  simp only [format_multioutput_body]
  refine presA_bind
    (presA_mono (by simp) (presA_join_go (presA_callNode hR) ", " _ true _))
    (fun s1 _ => ?_)
  exact presA_pure (by simp)

theorem presA_format_lambda_body {R : Call → State → Except Err State}
    (hR : ∀ c s, PresA s (R c s)) (s : State) (n : Node) :
    PresA s (format_lambda_body R s n) := by
  simp only [format_lambda_body]
  refine presA_bind_any (fun expression => ?_)
  refine presA_mono ?_ (presA_callNode hR _ expression)
  cases n.children.find? (fun c => c.kind == "arguments") <;> simp

theorem presA_format_fncall_body {R : Call → State → Except Err State}
    (hR : ∀ c s, PresA s (R c s)) (s : State) (n : Node) :
    PresA s (format_fncall_body R s n) := by
  intro s' h
  simp only [format_fncall_body] at h
  rcases bind_ok_elim h with ⟨p, h1, h2⟩
  obtain ⟨s1, parens⟩ := p
  have ha1 : s1.arguments = s.arguments :=
    presAP_fncall_head (presA_callNode hR) _ s (s1, parens) h1
  rcases hfind : n.children.find? (fun c => c.kind == "arguments")
    with _ | args <;> rw [hfind] at h2
  · rcases bind_ok_elim h2 with ⟨s2, h3, h4⟩
    cases pure_ok h4
    cases pure_ok h3
    simpa [apply_ite State.arguments] using ha1
  · rcases bind_ok_elim h2 with ⟨s2, h3, h4⟩
    cases pure_ok h4
    have ha2 := hR (.fnarguments args) _ s2 h3
    simp only [apply_ite State.arguments] at ha2 ⊢
    simp at ha2
    simpa [ha2] using ha1

theorem presA_format_arguments_body {R : Call → State → Except Err State}
    (hR : ∀ c s, PresA s (R c s)) (s : State) (n : Node) :
    PresA s (format_arguments_body R s n) := by
  simp only [format_arguments_body]
  exact presA_args_go (presA_callNode hR) _ _ s

theorem presA_format_command_body {R : Call → State → Except Err State}
    (hR : ∀ c s, PresA s (R c s)) (s : State) (n : Node) :
    PresA s (format_command_body R s n) := by
  simp only [format_command_body]
  refine presA_bind (presA_command_go (presA_callNode hR) _ _ s)
    (fun s1 _ => ?_)
  exact presA_pure (by simp)

theorem presA_format_field_body {R : Call → State → Except Err State}
    (hR : ∀ c s, PresA s (R c s)) (s : State) (n : Node) :
    PresA s (format_field_body R s n) := by
  simp only [format_field_body]
  exact presA_join_go (presA_callNode hR) "." _ true s

theorem presA_format_matrix_body {R : Call → State → Except Err State}
    (hR : ∀ c s, PresA s (R c s)) (s : State) (n : Node) :
    PresA s (format_matrix_body R s n) := by
  intro s' h
  simp only [format_matrix_body] at h
  rcases bind_ok_elim h with ⟨s1, h1, h2⟩
  cases pure_ok h2
  have ha : s1.arguments = s.arguments := by
    have := presA_matrix_go (presA_callNode hR) _ _ true _ s1 h1
    simpa [apply_ite State.arguments] using this
  simpa [apply_ite State.arguments] using ha

theorem presA_format_row_body {R : Call → State → Except Err State}
    (hR : ∀ c s, PresA s (R c s)) (s : State) (n : Node) :
    PresA s (format_row_body R s n) := by
  simp only [format_row_body]
  exact presA_row_go (presA_callNode hR) _ true s

theorem presA_format_while_body {R : Call → State → Except Err State}
    (hR : ∀ c s, PresA s (R c s)) (s : State) (n : Node) :
    PresA s (format_while_body R s n) := by
  simp only [format_while_body]
  refine presA_bind_any (fun condition => ?_)
  refine presA_bind (presA_mono (by simp) (presA_callNode hR _ condition))
    (fun s1 _ => ?_)
  refine presA_bind (presA_print_linter_comment s1 n) (fun s2 _ => ?_)
  cases n.children.find? (fun c => c.kind == "block") with
  | some b =>
      refine presA_bind (presA_mono (by simp) (presA_callBlock hR n b _))
        (fun s3 _ => ?_)
      exact presA_pure (by simp)
  | none =>
      refine presA_bind
        (presA_mono (by simp) (presA_print_non_linter_comments _ n))
        (fun s3 _ => ?_)
      exact presA_pure (by simp)

theorem presA_format_try_body {R : Call → State → Except Err State}
    (hR : ∀ c s, PresA s (R c s)) (s : State) (n : Node) :
    PresA s (format_try_body R s n) := by
  simp only [format_try_body]
  refine presA_bind_any (fun catchC => ?_)
  cases n.children.find? (fun c => c.kind == "block") with
  | some b =>
      refine presA_bind (presA_mono (by simp) (presA_callBlock hR n b _))
        (fun s1 _ => ?_)
      refine presA_bind
        (presA_mono
          (by cases catchC.children.find? (fun c => c.kind == "identifier") <;>
                simp)
          (presA_print_linter_comment _ catchC))
        (fun s2 _ => ?_)
      cases catchC.children.find? (fun c => c.kind == "block") with
      | some cb =>
          refine presA_bind
            (presA_mono (by simp) (presA_callBlock hR catchC cb _))
            (fun s3 _ => ?_)
          exact presA_pure (by simp)
      | none =>
          refine presA_bind
            (presA_mono (by simp) (presA_print_non_linter_comments _ catchC))
            (fun s3 _ => ?_)
          exact presA_pure (by simp)
  | none =>
      refine presA_bind
        (presA_mono (by simp) (presA_print_non_linter_comments _ n))
        (fun s1 _ => ?_)
      refine presA_bind
        (presA_mono
          (by cases catchC.children.find? (fun c => c.kind == "identifier") <;>
                simp)
          (presA_print_linter_comment _ catchC))
        (fun s2 _ => ?_)
      cases catchC.children.find? (fun c => c.kind == "block") with
      | some cb =>
          refine presA_bind
            (presA_mono (by simp) (presA_callBlock hR catchC cb _))
            (fun s3 _ => ?_)
          exact presA_pure (by simp)
      | none =>
          refine presA_bind
            (presA_mono (by simp) (presA_print_non_linter_comments _ catchC))
            (fun s3 _ => ?_)
          exact presA_pure (by simp)

theorem presA_format_switch_body {R : Call → State → Except Err State}
    (hR : ∀ c s, PresA s (R c s)) (s : State) (n : Node) :
    PresA s (format_switch_body R s n) := by
  simp only [format_switch_body]
  refine presA_bind_any (fun condition => ?_)
  refine presA_bind (presA_mono (by simp) (presA_callNode hR _ condition))
    (fun s1 _ => ?_)
  refine presA_bind (presA_print_linter_comment s1 n) (fun s2 _ => ?_)
  refine presA_bind
    (presA_mono (by simp)
      (presA_switch_cases_go (presA_callNode hR) (presA_callBlock hR) _ _))
    (fun s3 _ => ?_)
  cases n.namedChildren.find? (fun c => c.kind == "otherwise_clause") with
  | some ow =>
      dsimp only
      cases ow.children.find? (fun c => c.kind == "block") with
      | some b =>
          refine presA_bind (presA_mono ?_ (presA_callBlock hR ow b _))
            (fun s4 _ => ?_)
          · simp
          refine presA_bind (presA_pure ?_) (fun s5 _ => presA_pure ?_)
          · simp
          · simp
      | none =>
          refine presA_bind
            (presA_mono ?_ (presA_print_non_linter_comments _ ow))
            (fun s4 _ => ?_)
          · simp
          refine presA_bind (presA_pure ?_) (fun s5 _ => presA_pure ?_)
          · simp
          · simp
  | none =>
      exact presA_pure (by simp)

theorem presA_format_if_body {R : Call → State → Except Err State}
    (hR : ∀ c s, PresA s (R c s)) (s : State) (n : Node) :
    PresA s (format_if_body R s n) := by
  simp only [format_if_body]
  refine presA_bind_any (fun condition => ?_)
  refine presA_bind (presA_mono (by simp) (presA_callNode hR _ condition))
    (fun s1 _ => ?_)
  refine presA_bind (presA_print_linter_comment s1 n) (fun s2 _ => ?_)
  cases n.children.find? (fun c => c.kind == "block") with
  | some b =>
      refine presA_bind (presA_mono (by simp) (presA_callBlock hR n b _))
        (fun s3 _ => ?_)
      refine presA_bind
        (presA_mono (by simp)
          (presA_elseif_go (presA_callNode hR) (presA_callBlock hR) n _ _))
        (fun s4 _ => ?_)
      cases n.namedChildren.find? (fun c => c.kind == "else_clause") with
      | some ec =>
          dsimp only
          cases ec.children.find? (fun c => c.kind == "block") with
          | some eb =>
              refine presA_bind
                (presA_mono ?_ (presA_callBlock hR ec eb _))
                (fun s5 _ => ?_)
              · simp
              refine presA_bind (presA_pure ?_) (fun s6 _ => presA_pure ?_)
              · simp
              · simp
          | none =>
              refine presA_bind
                (presA_mono ?_
                  (presA_print_non_linter_comments_after _ n ec))
                (fun s5 _ => ?_)
              · simp
              refine presA_bind (presA_pure ?_) (fun s6 _ => presA_pure ?_)
              · simp
              · simp
      | none =>
          exact presA_pure (by simp)
  | none =>
      refine presA_bind
        (presA_mono (by simp) (presA_print_non_linter_comments _ n))
        (fun s3 _ => ?_)
      refine presA_bind
        (presA_mono (by simp)
          (presA_elseif_go (presA_callNode hR) (presA_callBlock hR) n _ _))
        (fun s4 _ => ?_)
      cases n.namedChildren.find? (fun c => c.kind == "else_clause") with
      | some ec =>
          dsimp only
          cases ec.children.find? (fun c => c.kind == "block") with
          | some eb =>
              refine presA_bind
                (presA_mono ?_ (presA_callBlock hR ec eb _))
                (fun s5 _ => ?_)
              · simp
              refine presA_bind (presA_pure ?_) (fun s6 _ => presA_pure ?_)
              · simp
              · simp
          | none =>
              refine presA_bind
                (presA_mono ?_
                  (presA_print_non_linter_comments_after _ n ec))
                (fun s5 _ => ?_)
              · simp
              refine presA_bind (presA_pure ?_) (fun s6 _ => presA_pure ?_)
              · simp
              · simp
      | none =>
          exact presA_pure (by simp)

theorem presA_format_for_body {R : Call → State → Except Err State}
    (hR : ∀ c s, PresA s (R c s)) (s : State) (n : Node) :
    PresA s (format_for_body R s n) := by
  simp only [format_for_body]
  refine presA_bind_any (fun parfor => ?_)
  refine presA_bind_any (fun iterator => ?_)
  cases n.children.find? (fun c => c.kind == "parfor_options") with
  | some options =>
      dsimp only
      refine presA_bind_any (fun it0 => ?_)
      refine presA_bind_any (fun it1 => ?_)
      refine presA_bind (presA_mono ?_ (presA_callNode hR _ it1))
        (fun s1 _ => ?_)
      · simp
      refine presA_bind_any (fun op0 => ?_)
      refine presA_bind (presA_pure ?_) (fun s2 _ => ?_)
      · simp
      refine presA_bind (presA_print_linter_comment s2 n) (fun s3 _ => ?_)
      cases n.children.find? (fun c => c.kind == "block") with
      | some b =>
          refine presA_bind (presA_mono ?_ (presA_callBlock hR n b _))
            (fun s4 _ => presA_pure (by simp))
          simp
      | none =>
          refine presA_bind
            (presA_mono ?_ (presA_print_non_linter_comments _ n))
            (fun s4 _ => presA_pure (by simp))
          simp
  | none =>
      dsimp only
      refine presA_bind_any (fun it0 => ?_)
      refine presA_bind_any (fun it1 => ?_)
      refine presA_bind (presA_mono ?_ (presA_callNode hR _ it1))
        (fun s1 _ => ?_)
      · simp
      refine presA_bind (presA_print_linter_comment s1 n) (fun s3 _ => ?_)
      cases n.children.find? (fun c => c.kind == "block") with
      | some b =>
          refine presA_bind (presA_mono ?_ (presA_callBlock hR n b _))
            (fun s4 _ => presA_pure (by simp))
          simp
      | none =>
          refine presA_bind
            (presA_mono ?_ (presA_print_non_linter_comments _ n))
            (fun s4 _ => presA_pure (by simp))
          simp

theorem presA_format_function_body {R : Call → State → Except Err State}
    (hR : ∀ c s, PresA s (R c s)) (s : State) (n : Node) :
    PresA s (format_function_body R s n) := by
  simp only [format_function_body]
  refine presA_bind_any (fun name => ?_)
  cases n.namedChildren.find? (fun m => m.kind == "function_output") with
  | some o =>
      dsimp only
      refine presA_bind_any (fun c0 => ?_)
      refine presA_bind (presA_mono ?_ (presA_callNode hR _ c0))
        (fun s1 _ => ?_)
      · simp
      refine presA_bind (presA_pure ?_) (fun s2 _ => ?_)
      · simp
      refine presA_bind
        (presA_mono ?_ (presA_sec_items_go (presA_callNode hR) _ _))
        (fun s3 _ => ?_)
      · cases (n.children.filter (fun m => !m.isNamed)).find?
            (fun m => m.text == "get." || m.text == "set.") <;>
          cases n.namedChildren.find?
            (fun m => m.kind == "function_arguments") <;>
          simp
      cases n.namedChildren.find? (fun m => m.kind == "block") with
      | some b =>
          refine presA_bind (presA_mono ?_ (presA_callBlock hR n b _))
            (fun s4 _ => presA_pure (by simp))
          simp
      | none =>
          refine presA_bind
            (presA_mono ?_ (presA_print_non_linter_comments _ n))
            (fun s4 _ => presA_pure (by simp))
          simp
  | none =>
      dsimp only
      refine presA_bind (presA_pure ?_) (fun s0 _ => ?_)
      · simp
      refine presA_bind
        (presA_mono ?_ (presA_sec_items_go (presA_callNode hR) _ _))
        (fun s3 _ => ?_)
      · cases (n.children.filter (fun m => !m.isNamed)).find?
            (fun m => m.text == "get." || m.text == "set.") <;>
          cases n.namedChildren.find?
            (fun m => m.kind == "function_arguments") <;>
          simp
      cases n.namedChildren.find? (fun m => m.kind == "block") with
      | some b =>
          refine presA_bind (presA_mono ?_ (presA_callBlock hR n b _))
            (fun s4 _ => presA_pure (by simp))
          simp
      | none =>
          refine presA_bind
            (presA_mono ?_ (presA_print_non_linter_comments _ n))
            (fun s4 _ => presA_pure (by simp))
          simp

theorem presA_format_arguments_statement_body
    {R : Call → State → Except Err State}
    (hR : ∀ c s, PresA s (R c s)) (s : State) (n : Node) :
    PresA s (format_arguments_statement_body R s n) := by
  simp only [format_arguments_statement_body]
  cases n.children.find? (fun c => c.kind == "attributes") with
  | some attrs =>
      dsimp only
      refine presA_bind (presA_mono ?_ (hR (.fnarguments attrs) _))
        (fun s1 _ => ?_)
      · simp
      refine presA_bind (presA_pure ?_) (fun s2 _ => ?_)
      · simp
      refine presA_bind
        (presA_mono ?_ (presA_sec_items_go (fun s c => hR (.property c) s) _ _))
        (fun s3 _ => presA_pure (by simp))
      simp
  | none =>
      dsimp only
      refine presA_bind (presA_pure ?_) (fun s0 _ => ?_)
      · simp
      refine presA_bind
        (presA_mono ?_ (presA_sec_items_go (fun s c => hR (.property c) s) _ _))
        (fun s3 _ => presA_pure (by simp))
      simp

theorem presA_format_property_body {R : Call → State → Except Err State}
    (hR : ∀ c s, PresA s (R c s)) (s : State) (n : Node) :
    PresA s (format_property_body R s n) := by
  simp only [format_property_body]
  refine presA_bind_any (fun name => ?_)
  cases (n.children.filter (fun c => c.id != name.id)).find?
      (fun c => c.kind == "identifier" || c.kind == "property_name") with
  | some c =>
      dsimp only
      refine presA_bind (presA_mono ?_ (presA_callNode hR _ c))
        (fun s1 _ => ?_)
      · cases n.children.find? (fun c => c.kind == "dimensions") <;>
          simp [apply_ite State.arguments]
      cases n.children.find? (fun c => c.kind == "validation_functions") with
      | some v =>
          dsimp only
          refine presA_bind (presA_mono ?_ (hR (.fnarguments v) _))
            (fun s2 _ => ?_)
          · simp
          refine presA_bind (presA_pure ?_) (fun s3 _ => ?_)
          · simp
          cases n.children.find? (fun c => c.kind == "default_value") with
          | some dv =>
              refine presA_bind_any (fun c0 => ?_)
              refine presA_bind (presA_mono ?_ (presA_callNode hR _ c0))
                (fun s4 _ => presA_pure rfl)
              simp
          | none =>
              exact presA_bind (presA_pure rfl) (fun y _ => presA_pure rfl)
      | none =>
          dsimp only
          refine presA_bind (presA_pure rfl) (fun s3 _ => ?_)
          cases n.children.find? (fun c => c.kind == "default_value") with
          | some dv =>
              refine presA_bind_any (fun c0 => ?_)
              refine presA_bind (presA_mono ?_ (presA_callNode hR _ c0))
                (fun s4 _ => presA_pure rfl)
              simp
          | none =>
              exact presA_bind (presA_pure rfl) (fun y _ => presA_pure rfl)
  | none =>
      dsimp only
      refine presA_bind (presA_pure ?_) (fun s0 _ => ?_)
      · cases n.children.find? (fun c => c.kind == "dimensions") <;>
          simp [apply_ite State.arguments]
      cases n.children.find? (fun c => c.kind == "validation_functions") with
      | some v =>
          dsimp only
          refine presA_bind (presA_mono ?_ (hR (.fnarguments v) _))
            (fun s2 _ => ?_)
          · simp
          refine presA_bind (presA_pure ?_) (fun s3 _ => ?_)
          · simp
          cases n.children.find? (fun c => c.kind == "default_value") with
          | some dv =>
              refine presA_bind_any (fun c0 => ?_)
              refine presA_bind (presA_mono ?_ (presA_callNode hR _ c0))
                (fun s4 _ => presA_pure rfl)
              simp
          | none =>
              exact presA_bind (presA_pure rfl) (fun y _ => presA_pure rfl)
      | none =>
          dsimp only
          refine presA_bind (presA_pure rfl) (fun s3 _ => ?_)
          cases n.children.find? (fun c => c.kind == "default_value") with
          | some dv =>
              refine presA_bind_any (fun c0 => ?_)
              refine presA_bind (presA_mono ?_ (presA_callNode hR _ c0))
                (fun s4 _ => presA_pure rfl)
              simp
          | none =>
              exact presA_bind (presA_pure rfl) (fun y _ => presA_pure rfl)

theorem presA_format_classdef_body {R : Call → State → Except Err State}
    (hR : ∀ c s, PresA s (R c s)) (s : State) (n : Node) :
    PresA s (format_classdef_body R s n) := by
  simp only [format_classdef_body]
  refine presA_bind_any (fun name => ?_)
  cases n.children.find? (fun c => c.kind == "attributes") with
  | some a =>
      dsimp only
      refine presA_bind (presA_mono ?_ (hR (.attribs a) _)) (fun s1 _ => ?_)
      · simp
      refine presA_bind (presA_pure ?_) (fun s2 _ => ?_)
      · simp
      refine presA_bind
        (presA_mono ?_
          (presA_sec_items_go (fun s c => hR (.propertiesS c) s) _ _))
        (fun s3 _ => ?_)
      · cases n.children.find? (fun c => c.kind == "superclasses") <;> simp
      refine presA_bind
        (presA_mono (by simp)
          (presA_sec_items_go (fun s c => hR (.enumS c) s) _ _))
        (fun s4 _ => ?_)
      refine presA_bind
        (presA_mono (by simp)
          (presA_sec_items_go (fun s c => hR (.events c) s) _ _))
        (fun s5 _ => ?_)
      refine presA_bind
        (presA_mono (by simp)
          (presA_sec_items_go (fun s c => hR (.method c) s) _ _))
        (fun s6 _ => presA_pure (by simp))
  | none =>
      dsimp only
      refine presA_bind (presA_pure ?_) (fun s0 _ => ?_)
      · simp
      refine presA_bind
        (presA_mono ?_
          (presA_sec_items_go (fun s c => hR (.propertiesS c) s) _ _))
        (fun s3 _ => ?_)
      · cases n.children.find? (fun c => c.kind == "superclasses") <;> simp
      refine presA_bind
        (presA_mono (by simp)
          (presA_sec_items_go (fun s c => hR (.enumS c) s) _ _))
        (fun s4 _ => ?_)
      refine presA_bind
        (presA_mono (by simp)
          (presA_sec_items_go (fun s c => hR (.events c) s) _ _))
        (fun s5 _ => ?_)
      refine presA_bind
        (presA_mono (by simp)
          (presA_sec_items_go (fun s c => hR (.method c) s) _ _))
        (fun s6 _ => presA_pure (by simp))

theorem presA_format_attributes_body {R : Call → State → Except Err State}
    (hR : ∀ c s, PresA s (R c s)) (s : State) (n : Node) :
    PresA s (format_attributes_body R s n) := by
  simp only [format_attributes_body]
  refine presA_bind
    (presA_mono (by simp)
      (presA_join_go (fun s c => hR (.attrib c) s) ", " _ true _))
    (fun s1 _ => presA_pure (by simp))

theorem presA_format_attribute_body {R : Call → State → Except Err State}
    (hR : ∀ c s, PresA s (R c s)) (s : State) (n : Node) :
    PresA s (format_attribute_body R s n) := by
  simp only [format_attribute_body]
  refine presA_bind_any (fun identifier => ?_)
  cases n.namedChild 1 with
  | some v => exact presA_mono (by simp) (presA_callNode hR _ v)
  | none => exact presA_pure (by simp)

theorem presA_format_properties_body {R : Call → State → Except Err State}
    (hR : ∀ c s, PresA s (R c s)) (s : State) (n : Node) :
    PresA s (format_properties_body R s n) := by
  simp only [format_properties_body]
  cases n.namedChildren.find? (fun c => c.kind == "attributes") with
  | some a =>
      dsimp only
      refine presA_bind (presA_mono ?_ (hR (.attribs a) _)) (fun s1 _ => ?_)
      · simp
      refine presA_bind
        (presA_mono ?_ (presA_sec_items_go (fun s c => hR (.property c) s) _ _))
        (fun s3 _ => presA_pure (by simp))
      simp
  | none =>
      dsimp only
      refine presA_bind (presA_pure ?_) (fun s0 _ => ?_)
      · simp
      refine presA_bind
        (presA_mono ?_ (presA_sec_items_go (fun s c => hR (.property c) s) _ _))
        (fun s3 _ => presA_pure (by simp))
      simp

theorem presA_format_enum_body {R : Call → State → Except Err State}
    (hR : ∀ c s, PresA s (R c s)) (s : State) (n : Node) :
    PresA s (format_enum_body R s n) := by
  simp only [format_enum_body]
  cases n.namedChildren.find? (fun c => c.kind == "attributes") with
  | some a =>
      dsimp only
      refine presA_bind (presA_mono ?_ (hR (.attribs a) _)) (fun s1 _ => ?_)
      · simp
      refine presA_bind
        (presA_mono ?_
          (presA_sec_items_go
            (fun s c => presA_enum_item (presA_callNode hR) s c) _ _))
        (fun s3 _ => presA_pure (by simp))
      simp
  | none =>
      dsimp only
      refine presA_bind (presA_pure ?_) (fun s0 _ => ?_)
      · simp
      refine presA_bind
        (presA_mono ?_
          (presA_sec_items_go
            (fun s c => presA_enum_item (presA_callNode hR) s c) _ _))
        (fun s3 _ => presA_pure (by simp))
      simp

theorem presA_format_events_body {R : Call → State → Except Err State}
    (hR : ∀ c s, PresA s (R c s)) (s : State) (n : Node) :
    PresA s (format_events_body R s n) := by
  simp only [format_events_body]
  cases n.namedChildren.find? (fun c => c.kind == "attributes") with
  | some a =>
      dsimp only
      refine presA_bind (presA_mono ?_ (hR (.attribs a) _)) (fun s1 _ => ?_)
      · simp
      refine presA_bind
        (presA_mono ?_
          (presA_sec_items_go
            (fun s c => presA_pure (print_node_arguments s c)) _ _))
        (fun s3 _ => presA_pure (by simp))
      simp
  | none =>
      dsimp only
      refine presA_bind (presA_pure ?_) (fun s0 _ => ?_)
      · simp
      refine presA_bind
        (presA_mono ?_
          (presA_sec_items_go
            (fun s c => presA_pure (print_node_arguments s c)) _ _))
        (fun s3 _ => presA_pure (by simp))
      simp

theorem presA_format_method_body {R : Call → State → Except Err State}
    (hR : ∀ c s, PresA s (R c s)) (s : State) (n : Node) :
    PresA s (format_method_body R s n) := by
  simp only [format_method_body]
  cases n.namedChildren.find? (fun c => c.kind == "attributes") with
  | some a =>
      dsimp only
      refine presA_bind (presA_mono ?_ (hR (.attribs a) _)) (fun s1 _ => ?_)
      · simp
      refine presA_bind
        (presA_mono ?_
          (presA_sec_items_go (fun s c => hR (.signature c) s) _ _))
        (fun s2 _ => ?_)
      · simp
      refine presA_bind
        (presA_meth_defs_go (fun s c => hR (.functionS c) s) _ _ _)
        (fun s3 _ => presA_pure (by simp))
  | none =>
      dsimp only
      refine presA_bind (presA_pure ?_) (fun s0 _ => ?_)
      · simp
      refine presA_bind
        (presA_mono ?_
          (presA_sec_items_go (fun s c => hR (.signature c) s) _ _))
        (fun s2 _ => ?_)
      · simp
      refine presA_bind
        (presA_meth_defs_go (fun s c => hR (.functionS c) s) _ _ _)
        (fun s3 _ => presA_pure (by simp))

theorem presA_format_signature_body {R : Call → State → Except Err State}
    (hR : ∀ c s, PresA s (R c s)) (s : State) (n : Node) :
    PresA s (format_signature_body R s n) := by
  simp only [format_signature_body]
  refine presA_bind_any (fun name => ?_)
  cases n.namedChildren.find? (fun m => m.kind == "function_output") with
  | some o =>
      dsimp only
      refine presA_bind_any (fun c0 => ?_)
      refine presA_bind (presA_mono ?_ (presA_callNode hR _ c0))
        (fun s1 _ => ?_)
      · simp
      refine presA_bind (presA_pure ?_) (fun s2 _ => ?_)
      · simp
      refine presA_pure ?_
      cases (n.children.filter (fun m => !m.isNamed)).find?
          (fun m => m.text == "get." || m.text == "set.") <;>
        cases n.namedChildren.find?
          (fun m => m.kind == "function_arguments") <;>
        simp
  | none =>
      dsimp only
      refine presA_pure ?_
      cases (n.children.filter (fun m => !m.isNamed)).find?
          (fun m => m.text == "get." || m.text == "set.") <;>
        cases n.namedChildren.find?
          (fun m => m.kind == "function_arguments") <;>
        simp

theorem presA_step {R : Call → State → Except Err State}
    (hR : ∀ c s, PresA s (R c s)) : ∀ c s, PresA s (step R c s) := by
  intro c s
  cases c with
  | node n => exact presA_format_node_body hR s n
  | block n pr nx => exact presA_format_block_body hR s n pr nx
  | argumentsStatement n => exact presA_format_arguments_statement_body hR s n
  | assignment n => exact presA_format_assignment_body hR s n
  | binary n => exact presA_format_binary_body hR s n
  | boolean n => exact presA_format_boolean_body hR s n
  | unary n => exact presA_format_unary_body hR s n
  | parenthesis n => exact presA_format_parenthesis_body hR s n
  | range n => exact presA_format_range_body hR s n
  | multioutput n => exact presA_format_multioutput_body hR s n
  | lambda n => exact presA_format_lambda_body hR s n
  | fncall n => exact presA_format_fncall_body hR s n
  | fnarguments n => exact presA_format_arguments_body hR s n
  | command n => exact presA_format_command_body hR s n
  | fieldE n => exact presA_format_field_body hR s n
  | matrix n => exact presA_format_matrix_body hR s n
  | row n => exact presA_format_row_body hR s n
  | whileS n => exact presA_format_while_body hR s n
  | tryS n => exact presA_format_try_body hR s n
  | switchS n => exact presA_format_switch_body hR s n
  | ifS n => exact presA_format_if_body hR s n
  | forS n => exact presA_format_for_body hR s n
  | functionS n => exact presA_format_function_body hR s n
  | property n => exact presA_format_property_body hR s n
  | classdef n => exact presA_format_classdef_body hR s n
  | attribs n => exact presA_format_attributes_body hR s n
  | attrib n => exact presA_format_attribute_body hR s n
  | propertiesS n => exact presA_format_properties_body hR s n
  | enumS n => exact presA_format_enum_body hR s n
  | events n => exact presA_format_events_body hR s n
  | method n => exact presA_format_method_body hR s n
  | signature n => exact presA_format_signature_body hR s n

/-- Configuration frame property of the whole interpreter: a successful
formatting step leaves the `Arguments` record exactly as it found it, at
every fuel and entry point. -/
theorem presA_run : ∀ (f : Nat) (c : Call) (s : State), PresA s (run f c s) := by
  intro f
  induction f with
  | zero =>
      intro c s s' h
      rw [run_zero] at h
      exact Except.noConfusion h
  | succ g ih =>
      intro c s
      rw [run_succ]
      exact presA_step ih c s

@[simp] theorem maybe_set_formatted (s : State) (v : Nat) :
    (s.maybe_set_extra_indentation v).formatted = s.formatted := by
  unfold State.maybe_set_extra_indentation
  split <;> rfl

@[simp] theorem maybe_set_col (s : State) (v : Nat) :
    (s.maybe_set_extra_indentation v).col = s.col := by
  unfold State.maybe_set_extra_indentation
  split <;> rfl

@[simp] theorem maybe_set_level (s : State) (v : Nat) :
    (s.maybe_set_extra_indentation v).level = s.level := by
  unfold State.maybe_set_extra_indentation
  split <;> rfl

@[simp] theorem print_empty (s : State) : s.print "" = s := by
  unfold State.print
  rw [String.append_empty]
  have h0 : ("" : String).utf8ByteSize = 0 := rfl
  rw [h0, Nat.add_zero]

theorem println_formatted (s : State) (t : String) :
    (s.println t).formatted = s.formatted ++ t ++ "\n" := rfl

@[simp] theorem println_level (s : State) (t : String) :
    (s.println t).level = s.level := rfl

@[simp] theorem println_extra (s : State) (t : String) :
    (s.println t).extra_indentation = s.extra_indentation := rfl

@[simp] theorem print_level (s : State) (t : String) :
    (s.print t).level = s.level := rfl

@[simp] theorem print_extra (s : State) (t : String) :
    (s.print t).extra_indentation = s.extra_indentation := rfl

/-- Dispatch equation of `format_node` for a node kind outside the match
list (the verbatim default arm), at the example of identifiers. -/
theorem format_node_body_default (R : Call → State → Except Err State)
    (s : State) (n : Node) (h : n.kind = "identifier") :
    format_node_body R s n = .ok (print_node s n) := by
  simp only [format_node_body, h]
  repeat rw [if_neg (by decide)]

/-- Dispatch equation of `format_node` for assignments. -/
theorem format_node_body_assignment (R : Call → State → Except Err State)
    (s : State) (n : Node) (h : n.kind = "assignment") :
    format_node_body R s n = R (.assignment n) s := by
  simp only [format_node_body, h]
  rw [if_neg (by decide), if_pos (by decide)]

/-- Dispatch equation of `format_node` for matrix rows. -/
theorem format_node_body_row (R : Call → State → Except Err State)
    (s : State) (n : Node) (h : n.kind = "row") :
    format_node_body R s n = R (.row n) s := by
  simp only [format_node_body, h]
  repeat rw [if_neg (by decide)]
  rw [if_pos (by decide)]

theorem run_node_default (f : Nat) (s : State) (n : Node)
    (h : n.kind = "identifier") :
    run (f + 1) (.node n) s = .ok (print_node s n) := by
  rw [run_succ]
  exact format_node_body_default (run f) s n h

@[simp] theorem except_bind_ok {α β : Type} (a : α) (k : α → Except Err β) :
    ((Except.ok a : Except Err α) >>= k) = k a := rfl

@[simp] theorem except_bind_error {α β : Type} (e : Err)
    (k : α → Except Err β) :
    ((Except.error e : Except Err α) >>= k) = Except.error e := rfl

@[simp] theorem except_bind_pure {α β : Type} (a : α)
    (k : α → Except Err β) :
    ((pure a : Except Err α) >>= k) = k a := rfl

/-- C2: a tree whose root reports a syntax error is refused by `beautify`
before any node is formatted: the result is the parse-error value and no
output text is produced, for every fuel and configuration. -/
theorem syntax_error_refused (fuel : Nat) (root : Node) (args : Arguments)
    (h : root.hasError = true) :
    beautify fuel root args = .error .parseErr := by
  simp [beautify, h]

/-- Witness for C2 at a concrete erroneous root. -/
theorem syntax_error_refused_witness :
    beautify 5
      (Node.mk 0 "source_file" true false none "x" ⟨0, 0⟩ ⟨0, 1⟩ true [])
      { sparse_math := false, sparse_add := false, inplace := true }
      = .error .parseErr :=
  syntax_error_refused 5 _ _ rfl

theorem format_block_ok_newline {fuel : Nat} {s : State} {n : Node}
    {pr nx : List Node} {s' : State}
    (h : format_block fuel s n pr nx = .ok s') :
    ∃ t, s'.formatted = t ++ "\n" := by
  cases fuel with
  | zero =>
      rw [format_block, run_zero] at h
      exact Except.noConfusion h
  | succ g =>
      rw [format_block, run_succ] at h
      simp only [step, format_block_body] at h
      rcases bind_ok_elim h with ⟨s1, _, h2⟩
      cases pure_ok h2
      exact ⟨_, rfl⟩

/-- C10: every successful formatting pass produces newline-terminated text:
the root block rendering ends with one final line break, whatever the input
tree and configuration. -/
theorem output_newline_terminated (fuel : Nat) (root : Node)
    (args : Arguments) (out : String)
    (h : beautify fuel root args = .ok out) : ∃ t, out = t ++ "\n" := by
  unfold beautify at h
  split at h
  · exact Except.noConfusion h
  · cases hfb : format_block fuel
        { formatted := "", arguments := args, col := 0, row := 0, level := 0,
          extra_indentation := 0 } root [] [] with
    | error e =>
        rw [hfb] at h
        simp [Except.map] at h
    | ok sfin =>
        rw [hfb] at h
        simp only [Except.map, Except.ok.injEq] at h
        subst h
        exact format_block_ok_newline hfb

/-- Witness for C10: formatting an empty root block yields exactly one
newline. -/
theorem output_newline_terminated_witness : ∃ t, "\n" = t ++ "\n" :=
  output_newline_terminated 1
    (Node.mk 0 "source_file" true false none "" ⟨0, 0⟩ ⟨0, 0⟩ false [])
    { sparse_math := false, sparse_add := false, inplace := true }
    "\n" (by rfl)

/-- C4: the inter-statement separator of `format_block` emits exactly one
blank line between two statements whose source rows differ by more than one
(any larger run of blank source lines collapses to that one), and no blank
line otherwise: a gap of exactly one row gives a plain line break with
re-indent, and same-row statements either continue the line (same-row
assignment pairs and comments) or get a plain line break with re-indent —
in every case zero blank lines, preserving a blank-line count of zero or the
single blank line of a two-row gap unchanged. -/
theorem blank_line_policy (previous child : Node) (s : State) :
    (child.startPoint.row - previous.endPoint.row > 1 →
      (block_sep (some previous) child s).formatted
        = s.formatted ++ "\n" ++ "\n" ++ indentString s)
    ∧ (child.startPoint.row - previous.endPoint.row = 1 →
      (block_sep (some previous) child s).formatted
        = s.formatted ++ "\n" ++ indentString s)
    ∧ (child.startPoint.row = previous.endPoint.row →
      (block_sep (some previous) child s).formatted
        = s.formatted ++
          (if ((!(child.kind == "assignment" && previous.kind == "assignment"))
                && child.kind != "comment") = true
           then "\n" ++ indentString s else "")) := by
  refine ⟨?_, ?_, ?_⟩
  · intro hd
    have hne : child.startPoint.row ≠ previous.endPoint.row := by omega
    simp only [block_sep]
    rw [if_pos hd, if_pos (by simp [hne])]
    rw [indent_formatted]
    simp [println_formatted, indentString, String.append_assoc]
  · intro hd
    have hne : child.startPoint.row ≠ previous.endPoint.row := by omega
    have hng : ¬(child.startPoint.row - previous.endPoint.row > 1) := by
      omega
    simp only [block_sep]
    rw [if_neg hng, if_pos (by simp [hne])]
    rw [indent_formatted]
    simp [println_formatted, indentString, String.append_assoc]
  · intro heq
    have hng : ¬(child.startPoint.row - previous.endPoint.row > 1) := by
      omega
    have hb : (child.startPoint.row != previous.endPoint.row) = false := by
      simp [heq]
    simp only [block_sep]
    rw [if_neg hng]
    simp only [hb, Bool.or_false]
    split
    · rw [indent_formatted]
      simp [println_formatted, indentString, String.append_assoc]
    · simp

/-- Witness for C4 at concrete rows: a three-row gap collapses to one blank
line, a one-row gap stays a plain break. -/
theorem blank_line_policy_witness :
    (block_sep
        (some (Node.mk 1 "assignment" true false none "a = 1" ⟨0, 0⟩ ⟨0, 5⟩
          false []))
        (Node.mk 2 "assignment" true false none "b = 2" ⟨3, 0⟩ ⟨3, 5⟩
          false [])
        { formatted := "", arguments :=
            { sparse_math := false, sparse_add := false, inplace := true },
          col := 5, row := 0, level := 0,
          extra_indentation := 0 }).formatted
      = "" ++ "\n" ++ "\n" ++ indentString
          { formatted := "", arguments :=
              { sparse_math := false, sparse_add := false, inplace := true },
            col := 5, row := 0, level := 0, extra_indentation := 0 } :=
  (blank_line_policy _ _ _).1 (by decide)

/-- C5: the terminator policy of `format_block`: statement kinds carrying
their own delimiter (comments, if/for/while/switch/try, function and class
definitions, arguments blocks) get no terminator; an assignment directly
followed by an assignment starting on its end row is joined with a
comma-space; an assignment followed by anything else, or final in the block,
is terminated with a semicolon. -/
theorem terminator_policy (child : Node) (nx : Option Node) (s : State) :
    (blockStatements.contains child.kind = true → block_term child nx s = s)
    ∧ (child.kind = "assignment" →
        (∀ n2, nx = some n2 → n2.kind = "assignment" →
          child.endPoint.row = n2.startPoint.row →
          block_term child nx s = s.print ", ")
        ∧ (nx = none → block_term child nx s = s.print ";")
        ∧ (∀ n2, nx = some n2 →
            (n2.kind ≠ "assignment" ∨
              child.endPoint.row ≠ n2.startPoint.row) →
            block_term child nx s = s.print ";")) := by
  constructor
  · intro hstmt
    unfold block_term
    rw [if_pos hstmt]
  · intro hk
    have hns : ¬(blockStatements.contains child.kind = true) := by
      rw [hk]
      decide
    refine ⟨?_, ?_, ?_⟩
    · intro n2 hnx hk2 hrow
      subst hnx
      simp only [block_term]
      rw [if_neg hns]
      rw [if_pos (by simp [hk, hk2, hrow])]
    · intro hnx
      subst hnx
      simp only [block_term]
      rw [if_neg hns]
    · intro n2 hnx hdisj
      subst hnx
      simp only [block_term]
      rw [if_neg hns]
      refine if_neg ?_
      rcases hdisj with h | h <;> simp [hk, h]

/-- Witness for C5: an if statement gets no terminator; a lone assignment
gets a semicolon. -/
theorem terminator_policy_witness :
    (block_term
        (Node.mk 1 "if_statement" true false none "if x end" ⟨0, 0⟩ ⟨2, 3⟩
          false [])
        none
        { formatted := "", arguments :=
            { sparse_math := false, sparse_add := false, inplace := true },
          col := 0, row := 0, level := 0, extra_indentation := 0 })
      = { formatted := "", arguments :=
            { sparse_math := false, sparse_add := false, inplace := true },
          col := 0, row := 0, level := 0, extra_indentation := 0 }
    ∧ (block_term
        (Node.mk 2 "assignment" true false none "a = 1" ⟨0, 0⟩ ⟨0, 5⟩
          false [])
        none
        { formatted := "", arguments :=
            { sparse_math := false, sparse_add := false, inplace := true },
          col := 5, row := 0, level := 0, extra_indentation := 0 })
      = State.print
          { formatted := "", arguments :=
              { sparse_math := false, sparse_add := false, inplace := true },
            col := 5, row := 0, level := 0, extra_indentation := 0 } ";" :=
  ⟨(terminator_policy
      (Node.mk 1 "if_statement" true false none "if x end" ⟨0, 0⟩ ⟨2, 3⟩
        false []) none _).1 (by decide),
   ((terminator_policy
      (Node.mk 2 "assignment" true false none "a = 1" ⟨0, 0⟩ ⟨0, 5⟩
        false []) none _).2 rfl).2.1 rfl⟩

/-- C6: spacing of a binary operator over leaf operands: with both sparse
flags off the operator is emitted with no surrounding spaces; with
`sparse_math` on, or with `sparse_add` on and the operator among
`+ - .+ .-`, it gets exactly one space on each side; under `sparse_add`
alone any other operator stays unspaced.  The single equation covers all
three configuration modes through its condition, which is exactly the
condition of `format_binary`. -/
theorem binary_operator_spacing (f : Nat) (s : State) (node l o r : Node)
    (hc : node.children = [l, o, r]) (hl : l.isNamed = true)
    (hln : l.kind = "identifier") (ho : o.isNamed = false)
    (hr : r.isNamed = true) (hrn : r.kind = "identifier") :
    ∃ s', format_binary (f + 2) s node = .ok s' ∧
      s'.formatted = s.formatted ++ l.text ++
        (if (s.arguments.sparse_math
            || (s.arguments.sparse_add && addOps.contains (rustTrim o.text))) = true
         then " " ++ rustTrim o.text ++ " " else rustTrim o.text) ++ r.text := by
  have hfmtl : ∀ st : State, run (f + 1) (.node l) st
      = .ok (print_node st l) := fun st => run_node_default f st l hln
  have hfmtr : ∀ st : State, run (f + 1) (.node r) st
      = .ok (print_node st r) := fun st => run_node_default f st r hrn
  have hlc : (l.kind == "line_continuation") = false := by
    rw [hln]
    decide
  rw [format_binary, run_succ]
  simp only [step, format_binary_body, hc, binary_go, hl, ho, hr, callNode,
    hfmtl, hfmtr, except_bind_ok, hlc, if_true, Bool.false_eq_true,
    if_false, Bool.not_false, print_node_arguments, maybe_set_arguments,
    print_arguments]
  by_cases hsp : (s.arguments.sparse_math
      || (s.arguments.sparse_add && addOps.contains (rustTrim o.text))) = true
  · simp only [hsp, if_true, binary_go]
    refine ⟨_, rfl, ?_⟩
    simp [print_node, print_formatted, String.append_assoc]
  · have hsp' : (s.arguments.sparse_math
        || (s.arguments.sparse_add && addOps.contains (rustTrim o.text)))
        = false := Bool.not_eq_true _ |>.mp hsp
    simp only [hsp', if_false, Bool.false_eq_true, binary_go]
    refine ⟨_, rfl, ?_⟩
    simp [print_node, print_formatted, String.append_assoc]

/-- Witness for C6 at the concrete expression of the spec example under the
sparse-math mode. -/
theorem binary_operator_spacing_witness :
    ∃ s', format_binary 7
        { formatted := "", arguments :=
            { sparse_math := true, sparse_add := false, inplace := true },
          col := 0, row := 0, level := 0, extra_indentation := 0 }
        (Node.mk 5 "binary_operator" true false none "a+b" ⟨0, 0⟩ ⟨0, 3⟩ false
          [Node.mk 51 "identifier" true false none "a" ⟨0, 0⟩ ⟨0, 1⟩ false [],
           Node.mk 52 "+" false false none "+" ⟨0, 1⟩ ⟨0, 2⟩ false [],
           Node.mk 53 "identifier" true false none "b" ⟨0, 2⟩ ⟨0, 3⟩ false []])
        = .ok s' ∧ s'.formatted = "a + b" := by
  obtain ⟨s', h1, h2⟩ := binary_operator_spacing 5
    { formatted := "", arguments :=
        { sparse_math := true, sparse_add := false, inplace := true },
      col := 0, row := 0, level := 0, extra_indentation := 0 }
    (Node.mk 5 "binary_operator" true false none "a+b" ⟨0, 0⟩ ⟨0, 3⟩ false
      [Node.mk 51 "identifier" true false none "a" ⟨0, 0⟩ ⟨0, 1⟩ false [],
       Node.mk 52 "+" false false none "+" ⟨0, 1⟩ ⟨0, 2⟩ false [],
       Node.mk 53 "identifier" true false none "b" ⟨0, 2⟩ ⟨0, 3⟩ false []])
    (Node.mk 51 "identifier" true false none "a" ⟨0, 0⟩ ⟨0, 1⟩ false [])
    (Node.mk 52 "+" false false none "+" ⟨0, 1⟩ ⟨0, 2⟩ false [])
    (Node.mk 53 "identifier" true false none "b" ⟨0, 2⟩ ⟨0, 3⟩ false [])
    rfl rfl rfl rfl rfl rfl
  refine ⟨s', h1, ?_⟩
  rw [h2]
  decide

/-- C7: a range node renders its operands joined by a bare colon with no
surrounding spaces under every operator-spacing mode, and the operator
spacing configuration (both sparse flags) is restored to its pre-call value
once the range has been rendered: the transient `sparse_math` override never
leaks to any node formatted afterwards, whatever the operands are. -/
theorem range_spacing_and_restore :
    (∀ (fuel : Nat) (s : State) (node : Node) (s' : State),
        format_range fuel s node = .ok s' → s'.arguments = s.arguments)
    ∧ (∀ (f : Nat) (s : State) (node a b : Node),
        node.namedChildren.filter (fun c => c.kind != "line_continuation")
          = [a, b] →
        a.kind = "identifier" → b.kind = "identifier" →
        ∃ s', format_range (f + 2) s node = .ok s' ∧
          s'.formatted = s.formatted ++ a.text ++ ":" ++ b.text ∧
          s'.arguments = s.arguments) := by
  constructor
  · intro fuel s node s' h
    exact presA_run fuel (.range node) s s' h
  · intro f s node a b hfil ha hb
    have hfmta : ∀ st : State, run (f + 1) (.node a) st
        = .ok (print_node st a) := fun st => run_node_default f st a ha
    have hfmtb : ∀ st : State, run (f + 1) (.node b) st
        = .ok (print_node st b) := fun st => run_node_default f st b hb
    rw [format_range, run_succ]
    simp only [step, format_range_body, hfil, join_go, callNode, hfmta,
      hfmtb, except_bind_ok, if_true, if_false, Bool.false_eq_true]
    refine ⟨_, rfl, ?_, ?_⟩
    · simp [print_node, print_formatted, String.append_assoc]
    · simp

/-- Witness for C7 at the spec example, a numeric range under sparse-math. -/
theorem range_spacing_and_restore_witness :
    ∃ s', format_range 7
        { formatted := "", arguments :=
            { sparse_math := true, sparse_add := false, inplace := true },
          col := 0, row := 0, level := 0, extra_indentation := 0 }
        (Node.mk 6 "range" true false none "1:10" ⟨0, 0⟩ ⟨0, 4⟩ false
          [Node.mk 61 "identifier" true false none "1" ⟨0, 0⟩ ⟨0, 1⟩ false [],
           Node.mk 62 "identifier" true false none "10" ⟨0, 2⟩ ⟨0, 4⟩
             false []])
        = .ok s' ∧ s'.formatted = "1:10" ∧ s'.arguments =
          { sparse_math := true, sparse_add := false, inplace := true } := by
  obtain ⟨s', h1, h2, h3⟩ := (range_spacing_and_restore).2 5
    { formatted := "", arguments :=
        { sparse_math := true, sparse_add := false, inplace := true },
      col := 0, row := 0, level := 0, extra_indentation := 0 }
    (Node.mk 6 "range" true false none "1:10" ⟨0, 0⟩ ⟨0, 4⟩ false
      [Node.mk 61 "identifier" true false none "1" ⟨0, 0⟩ ⟨0, 1⟩ false [],
       Node.mk 62 "identifier" true false none "10" ⟨0, 2⟩ ⟨0, 4⟩ false []])
    (Node.mk 61 "identifier" true false none "1" ⟨0, 0⟩ ⟨0, 1⟩ false [])
    (Node.mk 62 "identifier" true false none "10" ⟨0, 2⟩ ⟨0, 4⟩ false [])
    rfl rfl rfl
  refine ⟨s', h1, ?_, ?_⟩
  · rw [h2]
    decide
  · rw [h3]

/-- C3: a node of a recognized kind that lacks a required field — here the
spec example, an assignment without a right-hand side — makes formatting
fail with an error carrying the offending node's source row and column, and
that error propagates through the block loop to the caller of `beautify`
(the whole pass aborts, nothing is retried). -/
theorem missing_field_error_propagates (f : Nat) (args : Arguments)
    (n root : Node) (hk : n.kind = "assignment")
    (hright : n.childByFieldName "right" = none)
    (he : root.hasError = false) (hc : root.namedChildren = [n]) :
    beautify (f + 3) root args
      = .error (.errAtLoc n.startPoint.row n.startPoint.col) := by
  have hasg : ∀ (g : Nat) (st : State), run (g + 1) (.assignment n) st
      = .error (.errAtLoc n.startPoint.row n.startPoint.col) := by
    intro g st
    rw [run_succ]
    simp only [step, format_assignment_body]
    cases hL : n.childByFieldName "left" with
    | none => simp [err_at_loc, hL]
    | some lhs => simp [err_at_loc, hL, hright]
  have hnode : ∀ st : State, run (f + 2) (.node n) st
      = .error (.errAtLoc n.startPoint.row n.startPoint.col) := by
    intro st
    rw [run_succ]
    simp only [step]
    rw [format_node_body_assignment _ _ _ hk]
    exact hasg f st
  have hcmd : (n.kind == "command") = false := by
    rw [hk]
    decide
  unfold beautify
  rw [if_neg (by simp [he])]
  rw [format_block, run_succ]
  simp only [step, format_block_body, hc, attachPrev, attachNext,
    List.append_nil, List.nil_append, block_go, block_step, block_dedent,
    hcmd, Bool.false_eq_true, if_false, block_sep, callNode, hnode,
    except_bind_error, except_bind_ok, except_bind_pure, Except.map]

/-- Witness for C3: a concrete assignment node with no children inside an
error-free root. -/
theorem missing_field_error_propagates_witness :
    beautify 3
      (Node.mk 0 "source_file" true false none "" ⟨0, 0⟩ ⟨2, 8⟩ false
        [Node.mk 9 "assignment" true false none "a = " ⟨2, 4⟩ ⟨2, 8⟩ false []])
      { sparse_math := false, sparse_add := false, inplace := true }
      = .error (.errAtLoc 2 4) :=
  missing_field_error_propagates 0
    { sparse_math := false, sparse_add := false, inplace := true }
    (Node.mk 9 "assignment" true false none "a = " ⟨2, 4⟩ ⟨2, 8⟩ false [])
    (Node.mk 0 "source_file" true false none "" ⟨0, 0⟩ ⟨2, 8⟩ false
      [Node.mk 9 "assignment" true false none "a = " ⟨2, 4⟩ ⟨2, 8⟩ false []])
    rfl rfl rfl rfl

/-- Head-plus-separated-tail join, the shape in which the matrix loop emits
its rows. -/
def rowsJoined (sep : String) : List String → String
  | [] => ""
  | t :: ts => t ++ String.join (ts.map (fun u => sep ++ u))

/-- Text a simple matrix row renders to: its named children space-joined. -/
def rowText (r : Node) : String :=
  rowsJoined " " (r.namedChildren.map Node.text)

theorem foldl_append_hoist (ts : List String) :
    ∀ (a b : String), ts.foldl (fun r s => r ++ s) (a ++ b)
      = a ++ ts.foldl (fun r s => r ++ s) b := by
  induction ts with
  | nil => intro a b; rfl
  | cons t ts ih =>
      intro a b
      simp only [List.foldl_cons, String.append_assoc, ih]

theorem join_cons (x : String) (xs : List String) :
    String.join (x :: xs) = x ++ String.join xs := by
  show xs.foldl (fun r s => r ++ s) ("" ++ x) = x ++ xs.foldl (fun r s => r ++ s) ""
  have h0 : ("" ++ x : String) = x := rfl
  have h1 : (x ++ "" : String) = x := String.append_empty x
  rw [h0]
  conv_lhs => rw [← h1]
  rw [foldl_append_hoist]

theorem callNode_def (R : Call → State → Except Err State) :
    callNode R = fun s c => R (.node c) s := rfl

theorem row_go_run (g : Nat) :
    ∀ (l : List Node) (s : State),
      (∀ c ∈ l, c.kind = "identifier" ∧ c.isExtra = false) →
      ∃ s₂, row_go (fun s c => run (g + 1) (.node c) s) false l s = .ok s₂ ∧
        s₂.formatted = s.formatted
          ++ String.join (l.map (fun c => " " ++ c.text)) ∧
        s₂.level = s.level ∧
        s₂.extra_indentation = s.extra_indentation := by
  intro l
  induction l with
  | nil =>
      intro s _
      exact ⟨s, rfl, by simp [String.join], rfl, rfl⟩
  | cons c rest ih =>
      intro s h
      obtain ⟨hck, hce⟩ := h c (List.mem_cons_self c rest)
      have hrest : ∀ x ∈ rest, x.kind = "identifier" ∧ x.isExtra = false :=
        fun x hx => h x (List.mem_cons_of_mem c hx)
      obtain ⟨s₂, hrun, hf, hl, he⟩ :=
        ih (print_node (s.print " ") c) hrest
      refine ⟨s₂, ?_, ?_, ?_, ?_⟩
      · simp only [row_go, hce, Bool.not_false, Bool.and_self, if_true,
          run_node_default g _ c hck, except_bind_ok]
        exact hrun
      · rw [hf]
        simp [print_node, print_formatted, join_cons, String.append_assoc]
      · rw [hl]; rfl
      · rw [he]; rfl

theorem run_row (g : Nat) (s : State) (r : Node) (hr : r.kind = "row")
    (hs : ∀ c ∈ r.namedChildren, c.kind = "identifier" ∧ c.isExtra = false) :
    ∃ s₂, run (g + 3) (.node r) s = .ok s₂ ∧
      s₂.formatted = s.formatted ++ rowText r ∧
      s₂.level = s.level ∧
      s₂.extra_indentation = s.extra_indentation := by
  have hpeel : run (g + 3) (.node r) s
      = row_go (fun s c => run (g + 1) (.node c) s) true r.namedChildren s := by
    rw [run_succ]
    show format_node_body (run (g + 2)) s r = _
    rw [format_node_body_row _ _ _ hr, run_succ]
    show format_row_body (run (g + 1)) s r = _
    rw [format_row_body]
    rfl
  rw [hpeel]
  cases hnc : r.namedChildren with
  | nil =>
      exact ⟨s, rfl, by simp [rowText, hnc, rowsJoined], rfl, rfl⟩
  | cons c rest =>
      have hmem := hs
      rw [hnc] at hmem
      obtain ⟨hck, hce⟩ := hmem c (List.mem_cons_self c rest)
      have hrest : ∀ x ∈ rest, x.kind = "identifier" ∧ x.isExtra = false :=
        fun x hx => hmem x (List.mem_cons_of_mem c hx)
      obtain ⟨s₂, hrun, hf, hl, he⟩ := row_go_run g rest (print_node s c) hrest
      refine ⟨s₂, ?_, ?_, ?_, ?_⟩
      · simp only [row_go, Bool.not_true, Bool.false_and, Bool.false_eq_true,
          if_false, run_node_default g _ c hck, except_bind_ok, hce]
        exact hrun
      · rw [hf]
        simp [rowText, hnc, rowsJoined, print_node, print_formatted,
          List.map_map, Function.comp_def, String.append_assoc]
      · rw [hl]; rfl
      · rw [he]; rfl

theorem matrix_go_run (g : Nat) (ml : Bool) (L E : Nat) :
    ∀ (l : List Node) (s : State), s.level = L → s.extra_indentation = E →
      (∀ r ∈ l, r.kind = "row" ∧ r.isExtra = false ∧
        ∀ c ∈ r.namedChildren, c.kind = "identifier" ∧ c.isExtra = false) →
      ∃ s₂, matrix_go (fun s c => run (g + 3) (.node c) s) ml false l s
          = .ok s₂ ∧
        s₂.formatted = s.formatted
          ++ String.join (l.map (fun r =>
              (if ml then ";" ++ "\n" ++ (strRep "    " L ++ strRep " " E)
               else "; ") ++ rowText r)) ∧
        s₂.level = L ∧ s₂.extra_indentation = E := by
  intro l
  induction l with
  | nil =>
      intro s hl he _
      exact ⟨s, rfl, by simp [String.join], hl, he⟩
  | cons r rest ih =>
      intro s hl he h
      obtain ⟨hrk, hre, hrc⟩ := h r (List.mem_cons_self r rest)
      have hrest := fun x hx => h x (List.mem_cons_of_mem r hx)
      have hncmt : (r.kind == "comment") = false := by
        rw [hrk]
        decide
      have hsepf : ((if ml = true then ((s.println ";").indent)
          else s.print "; ")).formatted = s.formatted
          ++ (if ml then ";" ++ "\n" ++ (strRep "    " L ++ strRep " " E)
              else "; ") := by
        cases ml
        · simp [print_formatted]
        · rw [if_pos rfl, indent_formatted, println_formatted]
          simp [indentString, println_level, println_extra, hl, he,
            String.append_assoc]
      have hsepl : ((if ml = true then ((s.println ";").indent)
          else s.print "; ")).level = L := by
        split <;> simp [printTimes_level, State.indent, hl]
      have hsepe : ((if ml = true then ((s.println ";").indent)
          else s.print "; ")).extra_indentation = E := by
        split <;> simp [printTimes_extra, State.indent, he]
      obtain ⟨s₁, hrun1, hf1, hl1, he1⟩ :=
        run_row g (if ml = true then ((s.println ";").indent)
          else s.print "; ") r hrk hrc
      obtain ⟨s₂, hrun2, hf2, hl2, he2⟩ := ih s₁
        (by rw [hl1, hsepl]) (by rw [he1, hsepe]) hrest
      refine ⟨s₂, ?_, ?_, hl2, he2⟩
      · simp only [matrix_go, hncmt, Bool.false_eq_true, if_false,
          Bool.not_false, if_true, hrun1, except_bind_ok, hre]
        exact hrun2
      · rw [hf2, hf1, hsepf, List.map_cons, join_cons]
        simp [String.append_assoc]

/-- C8 (amended): a matrix or cell literal whose source spans several rows
places each row on its own output line, emitting between consecutive rows a
semicolon, a line break and a re-indent to the post-bracket alignment
column; the last row is closed directly by the bracket, not by a semicolon.
A single-line literal keeps its rows on one line joined by a
semicolon-space.  The pre-call alignment base is restored afterwards. -/
theorem matrix_row_separators (f : Nat) (s : State) (node : Node)
    (_hkind : node.kind = "matrix" ∨ node.kind = "cell")
    (hrows : ∀ r ∈ node.namedChildren, r.kind = "row" ∧ r.isExtra = false ∧
      ∀ c ∈ r.namedChildren, c.kind = "identifier" ∧ c.isExtra = false) :
    ∃ s', format_matrix (f + 4) s node = .ok s' ∧
      s'.formatted = s.formatted
        ++ (if node.kind == "matrix" then "[" else "\x7b")
        ++ rowsJoined
            (if node.startPoint.row != node.endPoint.row
             then ";" ++ "\n" ++ (strRep "    " s.level
               ++ strRep " " (s.col + 1 - 4 * s.level))
             else "; ")
            (node.namedChildren.map rowText)
        ++ (if node.kind == "matrix" then "]" else "\x7d") ∧
      s'.extra_indentation = s.extra_indentation := by
  have hb1 : ("[" : String).utf8ByteSize = 1 := rfl
  have hb2 : ("\x7b" : String).utf8ByteSize = 1 := rfl
  have hpeel : format_matrix (f + 4) s node
      = format_matrix_body (run (f + 3)) s node := by
    rw [format_matrix, run_succ]
    rfl
  rw [hpeel, format_matrix_body]
  simp only [callNode_def]
  set sb := if (node.kind == "matrix") = true then s.print "[" else
    s.print "\x7b" with hsb
  have hsbf : sb.formatted = s.formatted
      ++ (if node.kind == "matrix" then "[" else "\x7b") := by
    rw [hsb]
    split <;> simp [print_formatted]
  have hsbc : sb.col = s.col + 1 := by
    rw [hsb]
    split <;> simp [State.print, hb1, hb2]
  have hsbl : sb.level = s.level := by
    rw [hsb]
    split <;> simp
  have hsbe : sb.extra_indentation = s.extra_indentation := by
    rw [hsb]
    split <;> simp
  have hsml : ({ sb with
      extra_indentation := sb.col - 4 * sb.level } : State).level
      = s.level := hsbl
  have hsme : ({ sb with
      extra_indentation := sb.col - 4 * sb.level } : State).extra_indentation
      = s.col + 1 - 4 * s.level := by
    simp only [hsbc, hsbl]
  cases hch : node.namedChildren with
  | nil =>
      simp only [hch, matrix_go, except_bind_pure]
      refine ⟨_, rfl, ?_, ?_⟩
      · simp only [rowsJoined, List.map_nil]
        by_cases hm : (node.kind == "matrix") = true <;>
          simp [hm, print_formatted, hsbf, String.append_assoc]
      · simp [hsbe]
  | cons r0 rest =>
      have hmem := hrows
      rw [hch] at hmem
      obtain ⟨hr0k, hr0e, hr0c⟩ := hmem r0 (List.mem_cons_self r0 rest)
      have hrest := fun x hx => hmem x (List.mem_cons_of_mem r0 hx)
      have hncmt : (r0.kind == "comment") = false := by
        rw [hr0k]
        decide
      obtain ⟨s₁, hrun1, hf1, hl1, he1⟩ :=
        run_row f ({ sb with
          extra_indentation := sb.col - 4 * sb.level } : State) r0 hr0k hr0c
      obtain ⟨s₂, hrun2, hf2, hl2, he2⟩ :=
        matrix_go_run f (node.startPoint.row != node.endPoint.row)
          s.level (s.col + 1 - 4 * s.level) rest s₁
          (by rw [hl1, hsml]) (by rw [he1, hsme]) hrest
      simp only [hch, matrix_go, hncmt, Bool.false_eq_true, if_false,
        Bool.not_true, Bool.false_and, hrun1, except_bind_ok, hr0e,
        Bool.not_false, if_true, hrun2, except_bind_pure]
      refine ⟨_, rfl, ?_, ?_⟩
      · have hfin : ∀ (t : State),
            ((if (node.kind == "matrix") = true then t.print "]"
              else t.print "\x7d")).formatted
            = t.formatted
              ++ (if node.kind == "matrix" then "]" else "\x7d") := by
          intro t
          split <;> simp_all [print_formatted]
        rw [hfin, hf2, hf1]
        have hsmf : ({ sb with
            extra_indentation := sb.col - 4 * sb.level } : State).formatted
            = sb.formatted := rfl
        rw [hsmf, hsbf]
        simp [rowsJoined, List.map_map, Function.comp_def,
          String.append_assoc]
      · simp [hsbe]

/-- Counterexample to the row-termination reading of the matrix layout: a
two-row multi-line matrix renders as "[1 2;\n 3 4]", whose single semicolon
separates the rows; the last row is closed by "]" with no ';' of its own. -/
theorem matrix_last_row_unterminated_cex :
    (format_matrix 8
        { formatted := "", arguments := ⟨false, false, true⟩, col := 0,
          row := 0, level := 0, extra_indentation := 0 }
        (Node.mk 7 "matrix" true false none "[1 2\n3 4]" ⟨0, 0⟩ ⟨1, 4⟩ false
          [Node.mk 71 "row" true false none "1 2" ⟨0, 1⟩ ⟨0, 4⟩ false
            [Node.mk 711 "identifier" true false none "1" ⟨0, 1⟩ ⟨0, 2⟩
              false [],
             Node.mk 712 "identifier" true false none "2" ⟨0, 3⟩ ⟨0, 4⟩
              false []],
           Node.mk 72 "row" true false none "3 4" ⟨1, 0⟩ ⟨1, 3⟩ false
            [Node.mk 721 "identifier" true false none "3" ⟨1, 0⟩ ⟨1, 1⟩
              false [],
             Node.mk 722 "identifier" true false none "4" ⟨1, 2⟩ ⟨1, 3⟩
              false []]])).map State.formatted = .ok "[1 2;\n 3 4]"
    ∧ ("[1 2;\n 3 4]").data.count (Char.ofNat 59) = 1 := by
  exact ⟨rfl, by decide⟩

/-- Witness for C8: the multi-line matrix above through the amended layout
theorem, and a single-line two-row matrix joined by a semicolon-space. -/
theorem matrix_row_separators_witness :
    ∃ s', format_matrix 8
        { formatted := "", arguments := ⟨false, false, true⟩, col := 0,
          row := 0, level := 0, extra_indentation := 0 }
        (Node.mk 7 "matrix" true false none "[1 2; 3 4]" ⟨0, 0⟩ ⟨0, 9⟩ false
          [Node.mk 71 "row" true false none "1 2" ⟨0, 1⟩ ⟨0, 4⟩ false
            [Node.mk 711 "identifier" true false none "1" ⟨0, 1⟩ ⟨0, 2⟩
              false [],
             Node.mk 712 "identifier" true false none "2" ⟨0, 3⟩ ⟨0, 4⟩
              false []],
           Node.mk 72 "row" true false none "3 4" ⟨0, 6⟩ ⟨0, 9⟩ false
            [Node.mk 721 "identifier" true false none "3" ⟨0, 6⟩ ⟨0, 7⟩
              false [],
             Node.mk 722 "identifier" true false none "4" ⟨0, 8⟩ ⟨0, 9⟩
              false []]]) = .ok s'
      ∧ s'.formatted = "[1 2; 3 4]" ∧ s'.extra_indentation = 0 := by
  obtain ⟨s', h1, h2, h3⟩ := matrix_row_separators 4
    { formatted := "", arguments := ⟨false, false, true⟩, col := 0,
      row := 0, level := 0, extra_indentation := 0 }
    (Node.mk 7 "matrix" true false none "[1 2; 3 4]" ⟨0, 0⟩ ⟨0, 9⟩ false
      [Node.mk 71 "row" true false none "1 2" ⟨0, 1⟩ ⟨0, 4⟩ false
        [Node.mk 711 "identifier" true false none "1" ⟨0, 1⟩ ⟨0, 2⟩
          false [],
         Node.mk 712 "identifier" true false none "2" ⟨0, 3⟩ ⟨0, 4⟩
          false []],
       Node.mk 72 "row" true false none "3 4" ⟨0, 6⟩ ⟨0, 9⟩ false
        [Node.mk 721 "identifier" true false none "3" ⟨0, 6⟩ ⟨0, 7⟩
          false [],
         Node.mk 722 "identifier" true false none "4" ⟨0, 8⟩ ⟨0, 9⟩
          false []]])
    (Or.inl rfl)
    (by decide)
  refine ⟨s', h1, ?_, h3⟩
  rw [h2]
  decide

/-- Counterexample to the first-writer-wins reading of the alignment column:
a function call entered while `extra_indentation` already holds 3 still
aligns its continuation line to the call's own bracket column (two spaces),
not to the latched 3 — `format_fncall` overwrites the column unconditionally
and only restores the old value on exit. -/
theorem extra_indentation_not_latched_cex :
    format_fncall 6
        { formatted := "", arguments := ⟨false, false, true⟩, col := 0,
          row := 0, level := 0, extra_indentation := 3 }
        (Node.mk 8 "function_call" true false none "f( ...\nx)" ⟨0, 0⟩
          ⟨1, 1⟩ false
          [Node.mk 81 "identifier" true false none "f" ⟨0, 0⟩ ⟨0, 1⟩
            false [],
           Node.mk 82 "(" false false none "(" ⟨0, 1⟩ ⟨0, 2⟩ false [],
           Node.mk 84 "arguments" true false none "...\nx" ⟨0, 2⟩ ⟨1, 0⟩
            false
            [Node.mk 83 "line_continuation" true true none "..." ⟨0, 2⟩
              ⟨0, 5⟩ false [],
             Node.mk 85 "identifier" true false none "x" ⟨1, 0⟩ ⟨1, 1⟩
              false []],
           Node.mk 86 ")" false false none ")" ⟨1, 0⟩ ⟨1, 1⟩ false []])
      = .ok { formatted := "f( ...\n  x)",
              arguments := ⟨false, false, true⟩, col := 4, row := 1,
              level := 0, extra_indentation := 3 }
    ∧ "f( ...\n  x)" ≠ "f( ...\n   x)" := by
  exact ⟨rfl, by decide⟩

/-- C9 (amended): `maybe_set_extra_indentation` requests are first-writer
wins — a no-op once the column is non-zero, a plain write when it is zero —
and every statement iteration of the block loop ends with the column cleared
to zero, so the column carried into each subsequent statement is zero.  The
latch does not govern `format_fncall`, `format_matrix` or `format_command`,
which overwrite the column unconditionally (the first two restoring the
previous value afterwards). -/
theorem extra_indentation_reset_and_latch :
    (∀ (s : State) (v : Nat), s.extra_indentation ≠ 0 →
        s.maybe_set_extra_indentation v = s)
    ∧ (∀ (s : State) (v : Nat), s.extra_indentation = 0 →
        s.maybe_set_extra_indentation v = { s with extra_indentation := v })
    ∧ (∀ (fmt : State → Node → Except Err State) (orig : Nat)
        (prev next : Option Node) (child : Node) (s s' : State),
        block_step fmt orig prev next child s = .ok s' →
        s'.extra_indentation = 0) := by
  refine ⟨?_, ?_, ?_⟩
  · intro s v h
    unfold State.maybe_set_extra_indentation
    rw [if_neg h]
  · intro s v h
    unfold State.maybe_set_extra_indentation
    rw [if_pos h]
  · intro fmt orig prev next child s s' h
    unfold block_step at h
    obtain ⟨s₁, h₁, h⟩ := bind_ok_elim h
    obtain ⟨s₂, h₂, h⟩ := bind_ok_elim h
    obtain ⟨s₃, h₃, h⟩ := bind_ok_elim h
    have he₃ : s₃.extra_indentation = 0 := by
      unfold block_indent at h₃
      by_cases hc : (child.kind == "command") = true
      · rw [if_pos hc] at h₃
        obtain ⟨c, _, h₃⟩ := bind_ok_elim h₃
        by_cases hb : (blockIndents.contains c.text) = true
        · rw [if_pos hb] at h₃
          cases h₃
          rfl
        · rw [if_neg hb] at h₃
          cases h₃
          rfl
      · rw [if_neg hc] at h₃
        cases h₃
        rfl
    cases h
    unfold block_term
    split
    · exact he₃
    · split
      · split <;> simpa [print_extra] using he₃
      · simpa [print_extra] using he₃

/-- Witness for C9: the no-op latch at a state already holding 3, the plain
write at a cleared state, and a concrete block iteration ending with the
column cleared. -/
theorem extra_indentation_reset_and_latch_witness :
    ({ formatted := "", arguments := ⟨false, false, true⟩, col := 7,
       row := 0, level := 0,
       extra_indentation := 3 } : State).maybe_set_extra_indentation 5
      = { formatted := "", arguments := ⟨false, false, true⟩, col := 7,
          row := 0, level := 0, extra_indentation := 3 }
    ∧ ({ formatted := "", arguments := ⟨false, false, true⟩, col := 7,
         row := 0, level := 0,
         extra_indentation := 0 } : State).maybe_set_extra_indentation 5
      = { formatted := "", arguments := ⟨false, false, true⟩, col := 7,
          row := 0, level := 0, extra_indentation := 5 }
    ∧ ({ formatted := ";", arguments := ⟨false, false, true⟩, col := 1,
         row := 0, level := 0,
         extra_indentation := 0 } : State).extra_indentation = 0 :=
  ⟨extra_indentation_reset_and_latch.1
      { formatted := "", arguments := ⟨false, false, true⟩, col := 7,
        row := 0, level := 0, extra_indentation := 3 } 5 (by decide),
   extra_indentation_reset_and_latch.2.1
      { formatted := "", arguments := ⟨false, false, true⟩, col := 7,
        row := 0, level := 0, extra_indentation := 0 } 5 rfl,
   extra_indentation_reset_and_latch.2.2 (fun s _ => Except.ok s) 0
      none none
      (Node.mk 99 "identifier" true false none "a" ⟨0, 0⟩ ⟨0, 1⟩ false [])
      { formatted := "", arguments := ⟨false, false, true⟩, col := 0,
        row := 0, level := 0, extra_indentation := 3 }
      { formatted := ";", arguments := ⟨false, false, true⟩, col := 1,
        row := 0, level := 0, extra_indentation := 0 } rfl⟩

end Beautifier
